import Mathlib

/-!
Verification of the template-driven lab-data-sheet application
(`src/app.py`, `src/exporter.py`).

The development shallowly embeds the data model and the operations the
specification talks about:

* Python runtime values (`PyVal`), restricted to the shapes the
  application manipulates: strings, arbitrary-precision integers,
  booleans, `None`, lists and (insertion-ordered) dicts.  Python floats
  are represented by their literal text (`PyVal.float`); no claim
  depends on float arithmetic.
* the JSON encoding performed by `json.dumps(value, ensure_ascii=False)`
  and the JSON decoding performed by `json.loads` (a fuel-indexed
  recursive-descent parser over the JSON grammar);
* the remote tabular store (a gspread spreadsheet) as a state holding
  the named worksheets' cell grids, together with a fault script that
  can make any remote call raise any exception — this models transport,
  auth and not-found failures of the real service;
* the two gate operations `check_exp_code_in_sheet` and
  `append_to_sheet`, including their `try/except` structure;
* the flatten/reconstruct pair used at write time
  (`append_to_sheet`) and at batch-export time (`page_batch_export`);
* the exporter's missing-template soft failure (`export_to_word`) and
  the radio-field index clamping of `_render_dynamic_field`.
-/

namespace LabSheet

/-- Python values as manipulated by the application.  Dicts are modelled
as insertion-ordered association lists (Python dicts preserve insertion
order, which the code relies on for column order).  A `PyVal.dict` with
duplicate keys does not correspond to any Python dict; theorems that
need dict-ness carry explicit `Nodup` hypotheses.  Floats are carried as
their literal text: no claim of this development depends on
floating-point values. -/
inductive PyVal : Type where
  | str (s : String)
  | int (n : Int)
  | bool (b : Bool)
  | none
  | float (lit : String)
  | list (elems : List PyVal)
  | dict (fields : List (String × PyVal))

/-- Lowercase hexadecimal digit, as used by Python's `'\\u{0:04x}'.format`. -/
def hexDigitChar (n : Nat) : Char :=
  if n < 10 then Char.ofNat (48 + n) else Char.ofNat (87 + n)

/-- Escaping of one character inside a JSON string literal, exactly as
`json.dumps(..., ensure_ascii=False)` does it: backslash, double quote
and control characters are escaped (shortcuts for the common control
characters, `\u00xx` otherwise), every other character is emitted
as itself. -/
def escapeChar (c : Char) : List Char :=
  if c = '\\' then ['\\', '\\']
  else if c = '"' then ['\\', '"']
  else if c = '\x08' then ['\\', 'b']
  else if c = '\x0c' then ['\\', 'f']
  else if c = '\n' then ['\\', 'n']
  else if c = '\r' then ['\\', 'r']
  else if c = '\t' then ['\\', 't']
  else if c.toNat < 32 then
    ['\\', 'u', '0', '0', hexDigitChar (c.toNat / 16), hexDigitChar (c.toNat % 16)]
  else [c]

/-- Escape a whole string body (no surrounding quotes). -/
def escapeStr (s : List Char) : List Char := s.flatMap escapeChar

/-- Decimal digits of a natural number, most significant first
(the digits of Python's `repr`). -/
def natDigits (n : Nat) : List Char :=
  if h : n < 10 then [Char.ofNat (48 + n)]
  else natDigits (n / 10) ++ [Char.ofNat (48 + n % 10)]
decreasing_by exact Nat.div_lt_self (by omega) (by omega)

/-- Python's `repr` of an `int`, as emitted by `json.dumps`. -/
def intRepr (n : Int) : List Char :=
  if n < 0 then '-' :: natDigits n.natAbs else natDigits n.natAbs

mutual
/-- The text produced by `json.dumps(v, ensure_ascii=False)` (Python's
default separators `', '` and `': '`), as a character list. -/
def dumpsChars : PyVal → List Char
  | .str s => '"' :: (escapeStr s.data ++ ['"'])
  | .int n => intRepr n
  | .bool b => if b then "true".data else "false".data
  | .none => "null".data
  | .float lit => lit.data
  | .list es => '[' :: (dumpsList es ++ [']'])
  | .dict ms => '\x7b' :: (dumpsMembers ms ++ ['\x7d'])

/-- Comma-separated dump of array elements. -/
def dumpsList : List PyVal → List Char
  | [] => []
  | [v] => dumpsChars v
  | v :: vs => dumpsChars v ++ ',' :: ' ' :: dumpsList vs

/-- Comma-separated dump of object members (`"key": value`, Python's
`': '` separator). -/
def dumpsMembers : List (String × PyVal) → List Char
  | [] => []
  | [(k, v)] => '"' :: (escapeStr k.data ++ '"' :: ':' :: ' ' :: dumpsChars v)
  | (k, v) :: ms =>
      ('"' :: (escapeStr k.data ++ '"' :: ':' :: ' ' :: dumpsChars v))
        ++ ',' :: ' ' :: dumpsMembers ms
end

/-- The `String` produced by `json.dumps(v, ensure_ascii=False)`. -/
def jsonDumps (v : PyVal) : String := String.mk (dumpsChars v)

/-! ### A model of `json.loads`

A recursive-descent parser over the JSON grammar accepted by Python's
`json.loads` (strict mode): whitespace is ` \t\n\r`; strings support the
standard escapes and `\uXXXX` (with surrogate pairs combined; a lone
surrogate is rejected, a slight narrowing forced by Lean's `Char`);
numbers follow the JSON grammar, with non-integral numbers carried as
`PyVal.float` literals; the constants `NaN`, `Infinity` and `-Infinity`
are accepted as Python does.  The mutually recursive productions are
indexed by fuel; `jsonLoads` supplies fuel larger than any input can
consume. -/

/-- JSON whitespace, as in Python's `json` module. -/
def isWsChar (c : Char) : Bool := c = ' ' || c = '\t' || c = '\n' || c = '\r'

/-- Drop leading JSON whitespace. -/
def skipWs : List Char → List Char
  | [] => []
  | c :: cs => if isWsChar c then skipWs cs else c :: cs

/-- ASCII decimal digit test. -/
def isDig (c : Char) : Bool := '0' ≤ c && c ≤ '9'

/-- Split a leading run of decimal digits from the input. -/
def spanDigits : List Char → List Char × List Char
  | [] => ([], [])
  | c :: cs =>
      if isDig c then
        let p := spanDigits cs
        (c :: p.1, p.2)
      else ([], c :: cs)

/-- Numeric value of a digit string (most significant digit first). -/
def natFromDigits (acc : Nat) : List Char → Nat
  | [] => acc
  | c :: cs => natFromDigits (acc * 10 + (c.toNat - 48)) cs

/-- Value of one hexadecimal digit. -/
def hexVal (c : Char) : Option Nat :=
  if '0' ≤ c ∧ c ≤ '9' then some (c.toNat - 48)
  else if 'a' ≤ c ∧ c ≤ 'f' then some (c.toNat - 87)
  else if 'A' ≤ c ∧ c ≤ 'F' then some (c.toNat - 55)
  else Option.none

/-- Value of four hexadecimal digits. -/
def hex4 (a b c d : Char) : Option Nat := do
  let x ← hexVal a
  let y ← hexVal b
  let z ← hexVal c
  let w ← hexVal d
  pure (((x * 16 + y) * 16 + z) * 16 + w)

/-- Decode the second half of a `\uXXXX` surrogate pair (`n` is the high
surrogate already read). -/
def decodeSurrogate (n : Nat) : List Char → Option (Char × List Char)
  | e1 :: e2 :: g1 :: g2 :: g3 :: g4 :: cs4 =>
    if e1 = '\\' ∧ e2 = 'u' then
      match hex4 g1 g2 g3 g4 with
      | some m =>
        if 0xDC00 ≤ m ∧ m < 0xE000 then
          some (Char.ofNat (0x10000 + (n - 0xD800) * 0x400 + (m - 0xDC00)), cs4)
        else Option.none
      | Option.none => Option.none
    else Option.none
  | _ => Option.none

/-- Decode a `\uXXXX` escape (the input starts right after the `u`):
a plain code point, or a surrogate pair combined into one character (a
lone surrogate is rejected, a slight narrowing forced by Lean's
`Char`). -/
def decodeU : List Char → Option (Char × List Char)
  | h1 :: h2 :: h3 :: h4 :: cs3 =>
    match hex4 h1 h2 h3 h4 with
    | some n =>
      if n < 0xD800 ∨ 0xE000 ≤ n then some (Char.ofNat n, cs3)
      else if n < 0xDC00 then decodeSurrogate n cs3
      else Option.none
    | Option.none => Option.none
  | _ => Option.none

/-- Decode one escape sequence (the input starts right after the
backslash), returning the decoded character and the remaining input. -/
def decodeEscape : List Char → Option (Char × List Char)
  | [] => Option.none
  | d :: cs2 =>
    if d = '"' then some ('"', cs2)
    else if d = '\\' then some ('\\', cs2)
    else if d = '/' then some ('/', cs2)
    else if d = 'b' then some ('\x08', cs2)
    else if d = 'f' then some ('\x0c', cs2)
    else if d = 'n' then some ('\n', cs2)
    else if d = 'r' then some ('\r', cs2)
    else if d = 't' then some ('\t', cs2)
    else if d = 'u' then decodeU cs2
    else Option.none


set_option maxRecDepth 4000 in
theorem decodeSurrogate_lt (n : Nat) : ∀ {cs : List Char} {p : Char × List Char},
    decodeSurrogate n cs = some p → p.2.length < cs.length := by
  intro cs p h
  rcases cs with _ | ⟨e1, _ | ⟨e2, _ | ⟨g1, _ | ⟨g2, _ | ⟨g3, _ | ⟨g4, cs4⟩⟩⟩⟩⟩⟩ <;>
    first
      | (simp only [decodeSurrogate] at h
         split_ifs at h with he
         rcases hg : hex4 g1 g2 g3 g4 with _ | m
         · rw [hg] at h
           simp at h
         · rw [hg] at h
           simp at h
           obtain ⟨hm, hp⟩ := h
           subst hp
           simp
           omega)
      | simp [decodeSurrogate] at h

set_option maxRecDepth 4000 in
theorem decodeU_lt : ∀ {cs : List Char} {p : Char × List Char},
    decodeU cs = some p → p.2.length < cs.length := by
  intro cs p h
  rcases cs with _ | ⟨h1, _ | ⟨h2, _ | ⟨h3, _ | ⟨h4, cs3⟩⟩⟩⟩ <;>
    first
      | (simp only [decodeU] at h
         rcases hh : hex4 h1 h2 h3 h4 with _ | n
         · rw [hh] at h
           simp at h
         · rw [hh] at h
           simp only [] at h
           split_ifs at h with hv1 hv2
           · cases h
             simp only [List.length_cons]
             omega
           · have hs := decodeSurrogate_lt n h
             simp only [List.length_cons]
             omega)
      | simp [decodeU] at h

theorem decodeEscape_lt : ∀ {cs : List Char} {p : Char × List Char},
    decodeEscape cs = some p → p.2.length < cs.length := by
  intro cs p h
  rcases cs with _ | ⟨d, cs2⟩
  · simp [decodeEscape] at h
  · simp only [decodeEscape] at h
    split_ifs at h <;> first
      | (cases h; simp)
      | (have hdu := decodeU_lt h; simp; omega)
      | simp at h


/-- Parse a JSON string body (the opening quote already consumed),
returning the decoded characters and the input after the closing quote.
Raw control characters are rejected (Python's strict mode); `\\uXXXX`
surrogate pairs are combined (a lone surrogate is rejected, a slight
narrowing forced by Lean's `Char`). -/
def parseStringBody : List Char → Option (List Char × List Char)
  | [] => Option.none
  | c :: cs =>
    if c = '"' then some ([], cs)
    else if c = '\\' then
      match h : decodeEscape cs with
      | some p => (parseStringBody p.2).map (fun q => (p.1 :: q.1, q.2))
      | Option.none => Option.none
    else if c.toNat < 32 then Option.none
    else (parseStringBody cs).map (fun q => (c :: q.1, q.2))
termination_by l => l.length
decreasing_by
  · exact Nat.lt_succ_of_lt (decodeEscape_lt h)
  · simp

/-- Parse the integer part of a JSON number: `0` or a nonzero digit
followed by digits. -/
def parseIntPart : List Char → Option (List Char × List Char)
  | [] => Option.none
  | c :: cs =>
    if c = '0' then some (['0'], cs)
    else if '1' ≤ c ∧ c ≤ '9' then
      some (c :: (spanDigits cs).1, (spanDigits cs).2)
    else Option.none

/-- Parse a JSON exponent body (after the `e`/`E` marker): an optional
sign and at least one digit; returns the consumed characters. -/
def parseExpPart : List Char → Option (List Char × List Char)
  | [] => Option.none
  | c :: cs =>
    if c = '+' ∨ c = '-' then
      match spanDigits cs with
      | ([], _) => Option.none
      | (ds, r) => some (c :: ds, r)
    else
      (match spanDigits (c :: cs) with
       | ([], _) => Option.none
       | (ds, r) => some (ds, r))

/-- Continue a JSON number after its integer part: an optional fraction
and exponent make it a float (carried as its literal text, the way
Python's `float()` receives it); otherwise it is an `int`. -/
def parseNumAfterInt (neg : Bool) (ds : List Char) (r : List Char) :
    Option (PyVal × List Char) :=
  if r.head? = some '.' then
    match spanDigits r.tail with
    | ([], _) => Option.none
    | (fs, r2) =>
      if r2.head? = some 'e' ∨ r2.head? = some 'E' then
        match r2 with
        | m :: r3 =>
          (parseExpPart r3).map (fun p =>
            (.float (String.mk ((if neg then ['-'] else []) ++ ds ++ '.' :: fs ++ m :: p.1)),
             p.2))
        | [] => Option.none
      else some (.float (String.mk ((if neg then ['-'] else []) ++ ds ++ '.' :: fs)), r2)
  else if r.head? = some 'e' ∨ r.head? = some 'E' then
    match r with
    | m :: r2 =>
      (parseExpPart r2).map (fun p =>
        (.float (String.mk ((if neg then ['-'] else []) ++ ds ++ m :: p.1)), p.2))
    | [] => Option.none
  else
    some (.int (if neg then -(Int.ofNat (natFromDigits 0 ds)) else Int.ofNat (natFromDigits 0 ds)),
          r)

/-- Parse a JSON number whose first character `c` has already been
split off (it is `-` or a digit), or the `-Infinity` constant Python
accepts. -/
def parseNumber (c : Char) (cs1 : List Char) : Option (PyVal × List Char) :=
  if c = '-' then
    if cs1.head? = some 'I' then
      match cs1 with
      | 'I' :: 'n' :: 'f' :: 'i' :: 'n' :: 'i' :: 't' :: 'y' :: r => some (.float "-Infinity", r)
      | _ => Option.none
    else
      match parseIntPart cs1 with
      | Option.none => Option.none
      | some (ds, r) => parseNumAfterInt true ds r
  else
    match parseIntPart (c :: cs1) with
    | Option.none => Option.none
    | some (ds, r) => parseNumAfterInt false ds r

mutual
/-- Parse one JSON value (leading whitespace allowed). -/
def parseValue : Nat → List Char → Option (PyVal × List Char)
  | 0, _ => Option.none
  | f + 1, cs =>
    match skipWs cs with
    | [] => Option.none
    | c :: cs1 =>
      if c = '"' then (parseStringBody cs1).map (fun p => (.str (String.mk p.1), p.2))
      else if c = '[' then
        (if (skipWs cs1).head? = some ']' then some (.list [], (skipWs cs1).tail)
         else
           match parseValue f cs1 with
           | Option.none => Option.none
           | some (v, r1) =>
             match parseArrayTail f r1 with
             | Option.none => Option.none
             | some (vs, r2) => some (.list (v :: vs), r2))
      else if c = '\x7b' then
        (if (skipWs cs1).head? = some '\x7d' then some (.dict [], (skipWs cs1).tail)
         else
           match parseMember f cs1 with
           | Option.none => Option.none
           | some (m, r1) =>
             match parseMembersTail f r1 with
             | Option.none => Option.none
             | some (ms, r2) => some (.dict (m :: ms), r2))
      else if c = 't' then
        (match cs1 with
         | 'r' :: 'u' :: 'e' :: r => some (.bool true, r)
         | _ => Option.none)
      else if c = 'f' then
        (match cs1 with
         | 'a' :: 'l' :: 's' :: 'e' :: r => some (.bool false, r)
         | _ => Option.none)
      else if c = 'n' then
        (match cs1 with
         | 'u' :: 'l' :: 'l' :: r => some (.none, r)
         | _ => Option.none)
      else if c = 'N' then
        (match cs1 with
         | 'a' :: 'N' :: r => some (.float "NaN", r)
         | _ => Option.none)
      else if c = 'I' then
        (match cs1 with
         | 'n' :: 'f' :: 'i' :: 'n' :: 'i' :: 't' :: 'y' :: r => some (.float "Infinity", r)
         | _ => Option.none)
      else if c = '-' || isDig c then parseNumber c cs1
      else Option.none

/-- Parse the continuation of a JSON array after one element:
`, value`* followed by `]`. -/
def parseArrayTail : Nat → List Char → Option (List PyVal × List Char)
  | 0, _ => Option.none
  | f + 1, cs =>
    match skipWs cs with
    | ']' :: r => some ([], r)
    | ',' :: r =>
      (match parseValue f r with
       | Option.none => Option.none
       | some (v, r1) =>
         match parseArrayTail f r1 with
         | Option.none => Option.none
         | some (vs, r2) => some (v :: vs, r2))
    | _ => Option.none

/-- Parse one JSON object member: `"key" : value`. -/
def parseMember : Nat → List Char → Option ((String × PyVal) × List Char)
  | 0, _ => Option.none
  | f + 1, cs =>
    match skipWs cs with
    | '"' :: kcs =>
      (match parseStringBody kcs with
       | Option.none => Option.none
       | some (k, r) =>
         match skipWs r with
         | ':' :: r2 =>
           (match parseValue f r2 with
            | Option.none => Option.none
            | some (v, r3) => some ((String.mk k, v), r3))
         | _ => Option.none)
    | _ => Option.none

/-- Parse the continuation of a JSON object after one member. -/
def parseMembersTail : Nat → List Char → Option (List (String × PyVal) × List Char)
  | 0, _ => Option.none
  | f + 1, cs =>
    match skipWs cs with
    | '\x7d' :: r => some ([], r)
    | ',' :: r =>
      (match parseMember f r with
       | Option.none => Option.none
       | some (m, r1) =>
         match parseMembersTail f r1 with
         | Option.none => Option.none
         | some (ms, r2) => some (m :: ms, r2))
    | _ => Option.none
end

/-- Model of `json.loads s`: parse one value surrounded by optional
whitespace; anything else (including trailing data) is a decode error,
reported as `none`.  The fuel `2 * s.length + 2` exceeds what any parse
of `s` can consume (each recursive production consumes input). -/
def jsonLoads (s : String) : Option PyVal :=
  match parseValue (2 * s.length + 2) s.data with
  | some (v, rest) => if skipWs rest = [] then some v else Option.none
  | Option.none => Option.none

/-! ### Flattening and reconstruction

`append_to_sheet` (src/app.py:152) flattens a record before writing:
list-valued entries are serialized with `json.dumps(value,
ensure_ascii=False)`, everything else passes through.  The batch
exporter (src/app.py:536-543) reconstructs a record read back from the
store: every string value that starts with `[` and ends with `]` is
decoded with `json.loads`, and on `JSONDecodeError` the raw string is
kept. -/

/-- One value of `flat_data` (src/app.py:152). -/
def flattenVal : PyVal → PyVal
  | .list es => .str (jsonDumps (.list es))
  | v => v

/-- The `flat_data` dict of `append_to_sheet` (src/app.py:152). -/
def flattenRecord (r : List (String × PyVal)) : List (String × PyVal) :=
  r.map (fun kv => (kv.1, flattenVal kv.2))

/-- Python's `value.startswith('[')`. -/
def startsBracket (s : String) : Bool :=
  match s.data with
  | '[' :: _ => true
  | _ => false

/-- Python's `value.endswith(']')`. -/
def endsBracket (s : String) : Bool :=
  match s.data.getLast? with
  | some ']' => true
  | _ => false

/-- The per-value reconstruction step of `page_batch_export`
(src/app.py:538-543): bracketed strings are decoded with `json.loads`;
a decode failure leaves the raw string; non-strings pass through. -/
def reconstructVal : PyVal → PyVal
  | .str s =>
      if startsBracket s && endsBracket s then
        match jsonLoads s with
        | some j => j
        | Option.none => .str s
      else .str s
  | v => v

/-- The `reconstructed_record` of `page_batch_export`
(src/app.py:537-543): same keys, values reconstructed. -/
def reconstructRecord (r : List (String × PyVal)) : List (String × PyVal) :=
  r.map (fun kv => (kv.1, reconstructVal kv.2))

/-- A scalar table cell of the claim as stated — including floats.
This is the domain the round-trip claim quantifies over; the
counterexample below shows the claim fails on it (a `NaN` cell). -/
def cellScalar : PyVal → Bool
  | .str _ => true
  | .int _ => true
  | .bool _ => true
  | .none => true
  | .float _ => true
  | _ => false

/-- A table row of the claim as stated: a mapping whose values are
scalars (floats included). -/
def rowScalar : PyVal → Bool
  | .dict ms => ms.all (fun kv => cellScalar kv.2)
  | _ => false

/-- A record value in the domain of the claim as stated: table values
are lists of scalar-valued mappings, string values are not bracketed. -/
def valScalar : PyVal → Bool
  | .list es => es.all rowScalar
  | .str s => !(startsBracket s && endsBracket s)
  | _ => true

/-- All values of the record are in the claim's stated domain. -/
def recordScalar (r : List (String × PyVal)) : Bool := r.all (fun kv => valScalar kv.2)

/-- A scalar table cell of the amended round-trip claim: floats are
excluded, because the full claim is false for them — a `NaN` cell does
not survive `json.dumps`/`json.loads` up to Python equality (`nan ==
nan` is false), see the C3 counterexample. -/
def cellOk : PyVal → Bool
  | .str _ => true
  | .int _ => true
  | .bool _ => true
  | .none => true
  | _ => false

/-- A table row of the amended claim: a mapping whose values are
non-float scalars. -/
def rowOk : PyVal → Bool
  | .dict ms => ms.all (fun kv => cellOk kv.2)
  | _ => false

/-- A record value in the domain of the amended round-trip claim:
table values are lists of scalar-valued mappings without float cells,
string values are not bracketed. -/
def valOk : PyVal → Bool
  | .list es => es.all rowOk
  | .str s => !(startsBracket s && endsBracket s)
  | .float _ => false
  | _ => true

/-- All values of the record are in the amended round-trip domain. -/
def recordOk (r : List (String × PyVal)) : Bool := r.all (fun kv => valOk kv.2)

/-! ### Python equality

`reconstruct(flatten(record)) == record` is a Python `==`; it is not
structural equality of the embedded values, because a float `NaN`
compares unequal to everything, itself included (IEEE-754 semantics,
which Python follows).  Other floats are compared through their
canonical `repr` literal, which represents each float uniquely;
cross-type numeric equality (`1 == 1.0`) is not modelled — no
comparison this development makes mixes value types.  Dicts are
compared in insertion order; the records compared here (reconstruction
output against the original record) always agree on key order, where
this coincides with Python's order-insensitive dict equality. -/

mutual
/-- Python's `==` on the embedded values. -/
def pyEqVal : PyVal → PyVal → Bool
  | .str a, .str b => a == b
  | .int a, .int b => a == b
  | .bool a, .bool b => a == b
  | .none, .none => true
  | .float a, .float b => if a = "NaN" || b = "NaN" then false else a == b
  | .list as, .list bs => pyEqList as bs
  | .dict as, .dict bs => pyEqMembers as bs
  | _, _ => false

/-- Python's `==` on lists, pointwise. -/
def pyEqList : List PyVal → List PyVal → Bool
  | [], [] => true
  | a :: as, b :: bs => pyEqVal a b && pyEqList as bs
  | _, _ => false

/-- Python's `==` on equally-ordered dicts, pointwise. -/
def pyEqMembers : List (String × PyVal) → List (String × PyVal) → Bool
  | [], [] => true
  | (k1, v1) :: as, (k2, v2) :: bs => k1 == k2 && pyEqVal v1 v2 && pyEqMembers as bs
  | _, _ => false
end

/-- Python equality of two records, pointwise. -/
def pyEqRecord (a b : List (String × PyVal)) : Bool := pyEqMembers a b

/-! ### The exporter (`src/exporter.py`)

`export_to_word` renders a docx template; constructing `DocxTemplate`
raises when the template file is missing, and the function then returns
a fresh empty `io.BytesIO()` stream instead of propagating the
exception.  The filesystem and the docx engine are abstracted by an
environment: `load` returns the template file's bytes (`none` when the
file does not exist or cannot be read), `render` is the
render-and-save output for a loaded template. -/

/-- The docx engine and filesystem as `export_to_word` sees them. -/
structure DocxEnv where
  load : String → Option (List Nat)
  render : List Nat → List (String × PyVal) → List Nat

/-- `f"template_{template_name}.docx"` (src/exporter.py:21). -/
def templatePath (templateName : String) : String :=
  "template_" ++ templateName ++ ".docx"

/-- `export_to_word` (src/exporter.py:5-52): load the template at the
derived path; on failure return an empty in-memory stream, otherwise
render the data into the template and return the resulting bytes. -/
def export_to_word (env : DocxEnv) (data : List (String × PyVal))
    (templateName : String) : List Nat :=
  match env.load (templatePath templateName) with
  | Option.none => []
  | some tpl => env.render tpl data

/-! ### The radio widget of `_render_dynamic_field`

`st.radio(..., options=field_def['options'],
index=field_def['options'].index(current_value) if current_value in
field_def['options'] else 0, ...)` (src/app.py:243): the initially
selected option is the stored value when it is among the options and
the option at index 0 otherwise.  `current` is `none` when no value is
stored yet (Python `None`). -/

/-- The `index=` argument of the radio widget. -/
def radioIndex (options : List String) (current : Option String) : Nat :=
  match current with
  | some c => if options.contains c then options.indexOf c else 0
  | Option.none => 0

/-- The initially selected option of the rendered radio widget
(`none` only when the option list is empty). -/
def radioSelected (options : List String) (current : Option String) : Option String :=
  options.get? (radioIndex options current)

/-! ### The remote tabular store

The gspread client is modelled by a state `St`: whether the spreadsheet
designated by the configured URL exists (`present`), the worksheets'
cell grids by name (`sheets`), and a fault script `fault` that can make
any remote call raise any exception — this is how transport, auth and
injected not-found failures of the real service are quantified over.
Each primitive corresponds to one gspread call; each consumes one step
of the fault script (`clock`).  Cells hold the string form that
`row_values`/`col_values` of the real API return. -/

/-- Exceptions a store call can raise: the two gspread not-found
exceptions the code catches by name, and anything else (transport or
auth failures, `APIError`, ...) carrying its `str(e)` text. -/
inductive PyErr : Type where
  | spreadsheetNotFound
  | worksheetNotFound
  | apiError (msg : String)
deriving DecidableEq

/-- The text `str(e)` interpolated into the error messages.  For
`apiError` this is the carried text; the not-found exceptions are
rendered by a fixed tag (their exact Python rendering is irrelevant to
every claim). -/
def pyErrStr : PyErr → String
  | .spreadsheetNotFound => "SpreadsheetNotFound"
  | .worksheetNotFound => "WorksheetNotFound"
  | .apiError msg => msg

/-- A worksheet's cell grid, row-major. -/
abbrev Grid := List (List String)

/-- The store state: spreadsheet presence, worksheets, and the fault
script (`fault clock` is consulted at each remote call). -/
structure St where
  present : Bool
  sheets : List (String × Grid)
  fault : Nat → Option PyErr
  clock : Nat

/-- A store computation: it may raise, and it threads the state. -/
def M (α : Type) : Type := St → Except PyErr α × St

/-- Running `pure`. -/
def mPure (a : α) : M α := fun st => (.ok a, st)

/-- Running `bind`: sequencing that short-circuits on a raised error. -/
def mBind (x : M α) (f : α → M β) : M β := fun st =>
  match x st with
  | (.ok a, st1) => f a st1
  | (.error e, st1) => (.error e, st1)

instance : Monad M where
  pure := mPure
  bind := mBind

/-- One remote call's fault-script step: if the script names an error
at the current instant, that call raises it. -/
def tick : M Unit := fun st =>
  match st.fault st.clock with
  | some e => (.error e, { st with clock := st.clock + 1 })
  | Option.none => (.ok (), { st with clock := st.clock + 1 })

/-- Read the current state. -/
def getSt : M St := fun st => (.ok st, st)

/-- Raise a Python exception. -/
def throwE (e : PyErr) : M α := fun st => (.error e, st)

/-- Replace the worksheet map. -/
def setSheets (sh : List (String × Grid)) : M Unit := fun st =>
  (.ok (), { st with sheets := sh })

/-- The grid of a named worksheet (the empty grid if absent; reads are
only performed on worksheets known to exist). -/
def gridOf (st : St) (name : String) : Grid := (st.sheets.lookup name).getD []

/-- `client.open_by_url(sheet_url)`: raises `SpreadsheetNotFound` when
the spreadsheet does not exist.  The model holds the single spreadsheet
the configured URL designates, so the URL itself carries no
information. -/
def openByUrl (sheet_url : String) : M Unit := do
  let _ := sheet_url
  tick
  let st ← getSt
  if st.present then pure () else throwE .spreadsheetNotFound

/-- `spreadsheet.worksheet(name)`: raises `WorksheetNotFound` when the
tab is absent. -/
def getWorksheet (name : String) : M Unit := do
  tick
  let st ← getSt
  if (st.sheets.lookup name).isSome then pure () else throwE .worksheetNotFound

/-- `spreadsheet.add_worksheet(title=name, rows="100", cols="50")`: a
fresh worksheet whose cells are all empty — its grid is empty. -/
def addWorksheet (name : String) : M Unit := do
  tick
  let st ← getSt
  setSheets (st.sheets ++ [(name, [])])

/-- Drop trailing empty cells, as the Sheets values API does when a row
or column is read back. -/
def trimT : List String → List String
  | [] => []
  | c :: cs =>
    match trimT cs with
    | [] => if c = "" then [] else [c]
    | r => c :: r

/-- The pure content of `sheet.row_values(i)` (1-based). -/
def rowPure (g : Grid) (i : Nat) : List String := trimT (g.getD (i - 1) [])

/-- The pure content of `sheet.col_values(i)` (1-based). -/
def colPure (g : Grid) (i : Nat) : List String :=
  trimT (g.map (fun row => row.getD (i - 1) ""))

/-- `sheet.row_values(i)`. -/
def rowValues (name : String) (i : Nat) : M (List String) := do
  tick
  let st ← getSt
  pure (rowPure (gridOf st name) i)

/-- `sheet.col_values(i)`. -/
def colValues (name : String) (i : Nat) : M (List String) := do
  tick
  let st ← getSt
  pure (colPure (gridOf st name) i)

/-- Overwrite the cells of one row from 0-based position `s` on with
`vs`, padding with empty cells if the row was shorter. -/
def overlay : List String → Nat → List String → List String
  | r, _, [] => r
  | [], 0, v :: vs => v :: overlay [] 0 vs
  | _ :: rs, 0, v :: vs => v :: overlay rs 0 vs
  | [], s + 1, vs => "" :: overlay [] s vs
  | c :: rs, s + 1, vs => c :: overlay rs s vs

/-- Write a block of rows into a grid with its top-left cell at 0-based
position `(r0, c0)`. -/
def writeBlock : Grid → Nat → Nat → Grid → Grid
  | g, _, _, [] => g
  | g, 0, c0, b :: bs => overlay (g.headD []) c0 b :: writeBlock g.tail 0 c0 bs
  | [], r + 1, c0, bs => [] :: writeBlock [] r c0 bs
  | row :: g, r + 1, c0, bs => row :: writeBlock g r c0 bs
termination_by _g r _c b => (b.length, r)

/-- Replace the grid of a named worksheet (first occurrence). -/
def setGrid : List (String × Grid) → String → Grid → List (String × Grid)
  | [], _, _ => []
  | (n, g) :: rest, name, g2 =>
      if n = name then (n, g2) :: rest else (n, g) :: setGrid rest name g2

/-- Apply a grid transformation to a named worksheet. -/
def modifyGrid (name : String) (f : Grid → Grid) : M Unit := do
  let st ← getSt
  setSheets (setGrid st.sheets name (f (gridOf st name)))

/-- `sheet.update(range, values)` / `sheet.update(values)`: one remote
call writing a block whose top-left cell is the 0-based `(r0, c0)`
(`A1` when no range is given; `gspread.utils.rowcol_to_a1(1, k)` is
`(0, k - 1)`). -/
def updateAt (name : String) (r0 c0 : Nat) (block : Grid) : M Unit := do
  tick
  modifyGrid name (fun g => writeBlock g r0 c0 block)

/-- `sheet.append_rows(values)`: one remote call appending after the
last row of the data table — the end of the grid, since grids of this
model contain no trailing empty rows. -/
def appendRows (name : String) (rows : Grid) : M Unit := do
  tick
  modifyGrid name (fun g => g ++ rows)

/-- A store whose fault script never fires: every remote call that the
grid data lets succeed does succeed. -/
def NoFault (st : St) : Prop := ∀ n, st.fault n = Option.none

/-! ### The gate operations

`check_exp_code_in_sheet` (src/app.py:98-123) and `append_to_sheet`
(src/app.py:125-176), with their `try/except` structure made explicit:
the bodies run in `M`, and the top-level wrappers dispatch a raised
exception through the `except` clauses in source order. -/

/-- Python truthiness of the values the record can hold (the
`if exp_code_to_check:` test, src/app.py:142).  A float's truthiness is
rendered from its canonical literal; no claim exercises it. -/
def pyTruthy : PyVal → Bool
  | .str s => s ≠ ""
  | .int n => n ≠ 0
  | .bool b => b
  | .none => false
  | .float lit => lit ≠ "0.0"
  | .list es => !es.isEmpty
  | .dict ms => !ms.isEmpty

/-- Python's `value in list_of_cell_strings` (`==`-based): only a
string can equal a cell string read back from the sheet. -/
def pyStrIn (v : PyVal) (l : List String) : Bool :=
  match v with
  | .str s => l.contains s
  | _ => false

/-- Python's `str(value)` for the values interpolated into messages.
Containers are rendered via their JSON dump; in the code the
interpolated value is always a string, so the container cases are
unreachable. -/
def pyToStr : PyVal → String
  | .str s => s
  | .int n => String.mk (intRepr n)
  | .bool b => if b then "True" else "False"
  | .none => "None"
  | .float lit => lit
  | v => jsonDumps v

/-- The displayed string form a written cell takes when later read back
through `row_values`/`col_values` (gspread sends the raw value; the
sheet renders it as text). -/
def cellStr : PyVal → String
  | .str s => s
  | .int n => String.mk (intRepr n)
  | .bool b => if b then "TRUE" else "FALSE"
  | .none => ""
  | .float lit => lit
  | .list es => jsonDumps (.list es)
  | .dict ms => jsonDumps (.dict ms)

/-- Message of src/app.py:101. -/
def emptyCodeMsg : String := "實驗編號不得為空 (Experimental code cannot be empty.)"

/-- Message of src/app.py:107. -/
def availNewWsMsg (exp_code ws : String) : String :=
  "✅ 實驗編號 \x27" ++ exp_code ++ "\x27 可用 (分頁 \x27" ++ ws ++ "\x27 尚不存在)。"

/-- Message of src/app.py:111. -/
def noColMsg : String := "警告：在目標分頁中找不到 \x27exp_code\x27 欄位，無法檢查唯一性。"

/-- Message of src/app.py:117. -/
def collMsg (exp_code ws : String) : String :=
  "❌ 實驗編號 \x27" ++ exp_code ++ "\x27 已在分頁 \x27" ++ ws ++ "\x27 中存在。"

/-- Message of src/app.py:119. -/
def availMsg (exp_code ws : String) : String :=
  "✅ 實驗編號 \x27" ++ exp_code ++ "\x27 在分頁 \x27" ++ ws ++ "\x27 中可用。"

/-- Message of src/app.py:121. -/
def snfWarnMsg : String := "警告：找不到指定的 Google Sheet，無法檢查唯一性。"

/-- Message of src/app.py:123. -/
def checkErrMsg (e : PyErr) : String := "🚨 檢查實驗編號時發生錯誤: " ++ pyErrStr e

/-- Message of src/app.py:148. -/
def submitCollMsg (exp_code ws : String) : String :=
  "❌ 提交失敗：實驗編號 \x27" ++ exp_code ++ "\x27 已在分頁 \x27" ++ ws ++ "\x27 中存在。"

/-- The localized strings read from `languages.json` (a repository file
not under src/): modelled as fixed opaque constants — no claim depends
on their content. -/
def submitSuccessMsg : String := "submit_success"

/-- Localized `gcp_sheet_not_found_error` string (see
`submitSuccessMsg`). -/
def gcpSheetNotFoundErr : String := "gcp_sheet_not_found_error"

/-- Localized `submit_gspread_error` string (see `submitSuccessMsg`). -/
def submitGspreadErr : String := "submit_gspread_error"

/-- Message of src/app.py:174. -/
def appendSnfMsg (sheet_url : String) : String := gcpSheetNotFoundErr ++ ": " ++ sheet_url

/-- Message of src/app.py:176. -/
def appendErrMsg (e : PyErr) : String := submitGspreadErr ++ ": " ++ pyErrStr e

/-- The inner `try: sheet = spreadsheet.worksheet(name) except
gspread.exceptions.WorksheetNotFound:` — only that exception is caught
there; anything else keeps propagating. -/
def catchWNF (x : M Unit) : M Bool := fun st =>
  match x st with
  | (.ok _, st1) => (.ok true, st1)
  | (.error .worksheetNotFound, st1) => (.ok false, st1)
  | (.error e, st1) => (.error e, st1)

/-- Body of the outer `try` of `check_exp_code_in_sheet`
(src/app.py:102-119). -/
def checkRun (sheet_url exp_code ws : String) : M (Bool × String) := do
  openByUrl sheet_url
  let found ← catchWNF (getWorksheet ws)
  if !found then
    pure (true, availNewWsMsg exp_code ws)
  else do
    let header ← rowValues ws 1
    if !(header.contains "exp_code") then
      pure (true, noColMsg)
    else do
      let codes ← colValues ws (header.indexOf "exp_code" + 1)
      let existing_codes := codes.drop 1
      if existing_codes.contains exp_code then
        pure (false, collMsg exp_code ws)
      else
        pure (true, availMsg exp_code ws)

/-- `check_exp_code_in_sheet(client, sheet_url, exp_code,
worksheet_name)` (src/app.py:98-123).  The `exp_code` argument comes
from a text widget and is always a `str`; `if not exp_code` is its
emptiness test.  The `except` clauses are dispatched in source order:
`SpreadsheetNotFound` first, then the catch-all. -/
def check_exp_code_in_sheet (st : St) (sheet_url exp_code ws : String) : Bool × String :=
  if exp_code = "" then (false, emptyCodeMsg)
  else
    match checkRun sheet_url exp_code ws st with
    | (.ok r, _) => r
    | (.error .spreadsheetNotFound, _) => (true, snfWarnMsg)
    | (.error e, _) => (false, checkErrMsg e)

/-- Body of the `try` of `append_to_sheet` (src/app.py:132-171).  The
pandas reindexing step (`df_ordered`, src/app.py:166-168) is modelled
by projecting the flattened record over the widened header with empty
strings where the record has no value (`fillna('')`); this is its
behaviour whenever the header labels are duplicate-free, the only case
the theorems below use. -/
def appendRun (sheet_url : String) (data : List (String × PyVal)) (ws : String) :
    M (Bool × String) := do
  openByUrl sheet_url
  let found ← catchWNF (getWorksheet ws)
  if !found then addWorksheet ws
  let gateMsg ←
    match data.lookup "exp_code" with
    | some v =>
      if pyTruthy v then do
        let header ← rowValues ws 1
        if !header.isEmpty && header.contains "exp_code" then do
          let codes ← colValues ws (header.indexOf "exp_code" + 1)
          if pyStrIn v (codes.drop 1) then
            pure (some (submitCollMsg (pyToStr v) ws))
          else pure Option.none
        else pure Option.none
      else pure Option.none
    | Option.none => pure Option.none
  match gateMsg with
  | some m => pure (false, m)
  | Option.none => do
    let flat := flattenRecord data
    let existingHeaders ← rowValues ws 1
    if existingHeaders.isEmpty then do
      updateAt ws 0 0 [flat.map Prod.fst, flat.map (fun kv => cellStr kv.2)]
      pure (true, submitSuccessMsg)
    else do
      let newCols := (flat.map Prod.fst).filter (fun c => !existingHeaders.contains c)
      if !newCols.isEmpty then
        updateAt ws 0 existingHeaders.length [newCols]
      let widened := existingHeaders ++ newCols
      let rowVals := widened.map (fun c =>
        match flat.lookup c with
        | some v => cellStr v
        | Option.none => "")
      appendRows ws [rowVals]
      pure (true, submitSuccessMsg)

/-- `append_to_sheet(client, sheet_url, data_dict, worksheet_name)`
(src/app.py:125-176), returning the `(bool, str)` result together with
the final store state. -/
def append_to_sheet (st : St) (sheet_url : String) (data : List (String × PyVal))
    (ws : String) : (Bool × String) × St :=
  match appendRun sheet_url data ws st with
  | (.ok r, st1) => (r, st1)
  | (.error .spreadsheetNotFound, st1) => ((false, appendSnfMsg sheet_url), st1)
  | (.error e, st1) => ((false, appendErrMsg e), st1)


def bump (st : St) : St := { st with clock := st.clock + 1 }

/-- The key column of a collection as the claim describes it: the
values, below the header row, of the column at the position of
`exp_code` in the header. -/
def keyColumnBelowHeader (g : Grid) : List String :=
  (g.drop 1).map (fun row => row.getD ((rowPure g 1).indexOf "exp_code") "")

/-- The grid the gate of `append_to_sheet` reads: the worksheet's grid,
or the empty grid of the worksheet `append` just created. -/
def gateGrid (st : St) (ws : String) : Grid := (st.sheets.lookup ws).getD []

/-- Whether the inline uniqueness gate of `append_to_sheet`
(src/app.py:140-149) fires: a truthy `exp_code` entry that occurs in
the key column below a non-empty header containing `exp_code`. -/
def gateCollides (st : St) (data : List (String × PyVal)) (ws : String) : Bool :=
  match data.lookup "exp_code" with
  | some v =>
      pyTruthy v &&
        (!(rowPure (gateGrid st ws) 1).isEmpty
          && (rowPure (gateGrid st ws) 1).contains "exp_code"
          && pyStrIn v ((colPure (gateGrid st ws)
              ((rowPure (gateGrid st ws) 1).indexOf "exp_code" + 1)).drop 1))
  | Option.none => false

/-- The collision message the gate would produce. -/
def gateMsgOf (data : List (String × PyVal)) (ws : String) : String :=
  submitCollMsg (pyToStr ((data.lookup "exp_code").getD .none)) ws



/-! ### Proof-support notions for the JSON round trip -/

mutual
/-- The values `json.dumps` serializes faithfully in this model:
everything the application writes except floats, whose only admitted
literal is `NaN` (floats are carried as literal text here, and `NaN`
is the one float literal the development needs: `json.dumps` emits it
verbatim and `json.loads` parses it back verbatim). -/
def serOk : PyVal → Bool
  | .str _ => true
  | .int _ => true
  | .bool _ => true
  | .none => true
  | .float lit => lit == "NaN"
  | .list es => serList es
  | .dict ms => serMembers ms

/-- `serOk` on every element of an array. -/
def serList : List PyVal → Bool
  | [] => true
  | v :: vs => serOk v && serList vs

/-- `serOk` on every member value of an object. -/
def serMembers : List (String × PyVal) → Bool
  | [] => true
  | (_, v) :: ms => serOk v && serMembers ms
end

mutual
/-- Fuel sufficient for `parseValue` to parse the dump of a value. -/
def msize : PyVal → Nat
  | .list es => 1 + msizeL es
  | .dict ms => 1 + msizeM ms
  | _ => 1

/-- Fuel sufficient for `parseArrayTail` after the first element. -/
def msizeL : List PyVal → Nat
  | [] => 1
  | v :: vs => 1 + msize v + msizeL vs

/-- Fuel sufficient for `parseMembersTail` after the first member. -/
def msizeM : List (String × PyVal) → Nat
  | [] => 1
  | (_, v) :: ms => 1 + msize v + msizeM ms
end

/-- The characters allowed to follow a serialized number so that the
number parse stops exactly there. -/
def numStop : List Char → Prop
  | [] => True
  | c :: _ => isDig c = false ∧ c ≠ '.' ∧ c ≠ 'e' ∧ c ≠ 'E'

/-- The text of the continuation of a dumped array after its first
element: `, element`* (the closing bracket is appended by the caller). -/
def listSep : List PyVal → List Char
  | [] => []
  | v :: vs => ',' :: ' ' :: (dumpsChars v ++ listSep vs)

/-- The text of one dumped object member. -/
def memberChars (k : String) (v : PyVal) : List Char :=
  '"' :: (escapeStr k.data ++ '"' :: ':' :: ' ' :: dumpsChars v)

/-- The text of the continuation of a dumped object after its first
member. -/
def memSep : List (String × PyVal) → List Char
  | [] => []
  | (k, v) :: ms => ',' :: ' ' :: (memberChars k v ++ memSep ms)

/-! ### Theorems -/

theorem bind_is_mBind (x : M α) (f : α → M β) : x >>= f = mBind x f := rfl

theorem pure_is_mPure (a : α) : (pure a : M α) = mPure a := rfl


theorem tick_noFault {st : St} (h : NoFault st) : tick st = (.ok (), bump st) := by
  simp [tick, h st.clock, bump]

theorem checkRun_noFault {st : St} (h : NoFault st) (url code ws : String)
    (hp : st.present = true) (g : Grid) (hg : st.sheets.lookup ws = some g) :
    (checkRun url code ws st).1 = .ok (
      if !((rowPure g 1).contains "exp_code") then (true, noColMsg)
      else if (((colPure g ((rowPure g 1).indexOf "exp_code" + 1)).drop 1).contains code) then
        (false, collMsg code ws)
      else (true, availMsg code ws)) := by
  have h' : ∀ n, st.fault n = Option.none := h
  simp [checkRun, openByUrl, getWorksheet, rowValues, colValues, catchWNF, gridOf,
        bind_is_mBind, pure_is_mPure, mBind, mPure, tick, getSt, throwE, h', hp, hg]
  split <;> simp [mBind, mPure, tick, getSt, h', gridOf, hg]
  split <;> simp [mPure]


theorem trimT_append_replicate (l : List String) :
    ∃ k, l = trimT l ++ List.replicate k "" := by
  induction l with
  | nil => exact ⟨0, rfl⟩
  | cons c cs ih =>
    obtain ⟨k, hk⟩ := ih
    rcases h : trimT cs with _ | ⟨x, xs⟩
    · rw [h] at hk
      simp only [List.nil_append] at hk
      by_cases hc : c = ""
      · subst hc
        refine ⟨k + 1, ?_⟩
        have ht : trimT ("" :: cs) = [] := by simp [trimT, h]
        rw [ht, hk, List.nil_append, List.replicate_succ]
      · refine ⟨k, ?_⟩
        have ht : trimT (c :: cs) = [c] := by simp [trimT, h, hc]
        rw [ht, hk]
        rfl
    · rw [h] at hk
      refine ⟨k, ?_⟩
      have ht : trimT (c :: cs) = c :: x :: xs := by simp [trimT, h]
      rw [ht]
      conv_lhs => rw [hk]
      rfl

theorem mem_trimT_drop {c : String} (hc : c ≠ "") (l : List String) :
    c ∈ (trimT l).drop 1 ↔ c ∈ l.drop 1 := by
  obtain ⟨k, hk⟩ := trimT_append_replicate l
  rcases h : trimT l with _ | ⟨x, xs⟩
  · rw [h] at hk
    simp only [List.nil_append] at hk
    constructor
    · intro hm; simp [h] at hm
    · intro hm
      rw [hk] at hm
      have h2 : c ∈ List.replicate k "" := List.mem_of_mem_drop hm
      exact absurd (List.eq_of_mem_replicate h2) hc
  · rw [h] at hk
    conv_rhs => rw [hk]
    simp only [List.cons_append, List.drop_succ_cons, List.drop_zero]
    rw [List.mem_append]
    constructor
    · intro hm; exact Or.inl hm
    · rintro (hm | hm)
      · exact hm
      · exact absurd (List.eq_of_mem_replicate hm) hc


theorem check_of_run_ok {st : St} {url code ws : String} {r : Bool × String} (hc : ¬ code = "")
    (h : (checkRun url code ws st).1 = .ok r) :
    check_exp_code_in_sheet st url code ws = r := by
  unfold check_exp_code_in_sheet
  rw [if_neg hc]
  rcases hrun : checkRun url code ws st with ⟨res, st1⟩
  rw [hrun] at h
  simp only at h
  subst h
  rfl

theorem checkRun_noWs {st : St} (h : NoFault st) (url code ws : String)
    (hp : st.present = true) (hg : st.sheets.lookup ws = Option.none) :
    (checkRun url code ws st).1 = .ok (true, availNewWsMsg code ws) := by
  have h' : ∀ n, st.fault n = Option.none := h
  simp [checkRun, openByUrl, getWorksheet, catchWNF, bind_is_mBind, pure_is_mPure,
        mBind, mPure, tick, getSt, throwE, h', hp, hg]

theorem checkRun_noSpreadsheet {st : St} (h : NoFault st) (url code ws : String)
    (hp : st.present = false) :
    checkRun url code ws st = (.error .spreadsheetNotFound, bump st) := by
  have h' : ∀ n, st.fault n = Option.none := h
  simp [checkRun, openByUrl, bind_is_mBind, pure_is_mPure,
        mBind, mPure, tick, getSt, throwE, h', hp, bump]


/-- C4: with the collection present and its header containing
`exp_code`, a non-empty candidate is reported available exactly when it
does not occur in the key column below the header, and the message
states the collision or the availability. -/
theorem claim4_check_availability_iff (st : St) (url code ws : String) (g : Grid)
    (hnf : NoFault st) (hp : st.present = true) (hg : st.sheets.lookup ws = some g)
    (hh : (rowPure g 1).contains "exp_code" = true) (hc : code ≠ "") :
    ((check_exp_code_in_sheet st url code ws).1 = true ↔ code ∉ keyColumnBelowHeader g) ∧
    (check_exp_code_in_sheet st url code ws).2 =
      (if code ∈ keyColumnBelowHeader g then collMsg code ws else availMsg code ws) := by
  have hrun := checkRun_noFault hnf url code ws hp g hg
  rw [hh] at hrun
  simp only [Bool.not_true, Bool.false_eq_true, if_false] at hrun
  have hres := check_of_run_ok hc hrun
  have hmem : (((colPure g ((rowPure g 1).indexOf "exp_code" + 1)).drop 1).contains code = true)
      ↔ code ∈ keyColumnBelowHeader g := by
    simp only [List.contains, List.elem_eq_mem, decide_eq_true_eq]
    rw [colPure, Nat.add_sub_cancel, mem_trimT_drop hc, keyColumnBelowHeader, List.map_drop]
  by_cases hin : code ∈ keyColumnBelowHeader g
  · rw [if_pos (hmem.mpr hin)] at hres
    refine ⟨?_, ?_⟩
    · rw [hres]; simp [hin]
    · rw [hres, if_pos hin]
  · have hcf : ¬ ((((colPure g ((rowPure g 1).indexOf "exp_code" + 1)).drop 1).contains code) = true) :=
      fun hct => hin (hmem.mp hct)
    rw [if_neg hcf] at hres
    refine ⟨?_, ?_⟩
    · rw [hres]; simp [hin]
    · rw [hres, if_neg hin]





theorem lookup_append_none {sh : List (String × Grid)} {a : String}
    (h : sh.lookup a = Option.none) (l : List (String × Grid)) :
    (sh ++ l).lookup a = l.lookup a := by
  induction sh with
  | nil => rfl
  | cons p rest ih =>
    rcases p with ⟨n, g⟩
    simp only [List.cons_append, List.lookup] at h ⊢
    cases hn : (a == n) with
    | false =>
      simp only [hn] at h ⊢
      exact ih h
    | true => simp [hn] at h

set_option maxRecDepth 4000 in
set_option maxHeartbeats 2000000 in
theorem appendRun_fst {st : St} (hnf : NoFault st) (hp : st.present = true)
    (url ws : String) (data : List (String × PyVal)) :
    (appendRun url data ws st).1 =
      .ok (if gateCollides st data ws then (false, gateMsgOf data ws)
           else (true, submitSuccessMsg)) := by
  have h' : ∀ n, st.fault n = Option.none := hnf
  rcases hlk : st.sheets.lookup ws with _ | g
  · rcases hexp : data.lookup "exp_code" with _ | v
    · simp [appendRun, openByUrl, getWorksheet, addWorksheet, catchWNF, gridOf, setSheets,
            rowValues, colValues, updateAt, appendRows, modifyGrid, ite_apply,
            bind_is_mBind, pure_is_mPure, mBind, mPure, tick, getSt, throwE, h', hp, hlk,
            lookup_append_none hlk, List.lookup, hexp, gateCollides, gateMsgOf, gateGrid,
            rowPure, colPure, trimT]
    · by_cases htr : pyTruthy v = true <;>
        simp [appendRun, openByUrl, getWorksheet, addWorksheet, catchWNF, gridOf, setSheets,
              rowValues, colValues, updateAt, appendRows, modifyGrid, ite_apply,
              bind_is_mBind, pure_is_mPure, mBind, mPure, tick, getSt, throwE, h', hp, hlk,
              lookup_append_none hlk, List.lookup, hexp, htr, gateCollides, gateMsgOf, gateGrid,
              rowPure, colPure, trimT]
  · rcases hexp : data.lookup "exp_code" with _ | v
    · by_cases hhe : rowPure g 1 = []
      · simp [appendRun, openByUrl, getWorksheet, addWorksheet, catchWNF, gridOf, setSheets,
              rowValues, colValues, updateAt, appendRows, modifyGrid, ite_apply,
              bind_is_mBind, pure_is_mPure, mBind, mPure, tick, getSt, throwE, h', hp, hlk,
              hexp, hhe, gateCollides, gateMsgOf, gateGrid]
      · simp [appendRun, openByUrl, getWorksheet, addWorksheet, catchWNF, gridOf, setSheets,
              rowValues, colValues, updateAt, appendRows, modifyGrid, ite_apply,
              bind_is_mBind, pure_is_mPure, mBind, mPure, tick, getSt, throwE, h', hp, hlk,
              hexp, hhe, gateCollides, gateMsgOf, gateGrid]
        split <;> (try simp_all [mBind, mPure, tick, getSt, setSheets, setGrid, modifyGrid]) <;>
          (try (split <;> simp_all [mBind, mPure, tick, getSt, setSheets, setGrid, modifyGrid]))
    · by_cases htr : pyTruthy v = true
      · by_cases hcond : ¬(rowPure g 1) = [] ∧ "exp_code" ∈ rowPure g 1
        · by_cases hmem :
            pyStrIn v ((colPure g ((rowPure g 1).indexOf "exp_code" + 1)).tail) = true
          · simp [appendRun, openByUrl, getWorksheet, addWorksheet, catchWNF, gridOf, setSheets,
                  rowValues, colValues, updateAt, appendRows, modifyGrid, ite_apply,
                  bind_is_mBind, pure_is_mPure, mBind, mPure, tick, getSt, throwE, h', hp, hlk,
                  hexp, htr, hcond, hmem, hcond.1, hcond.2, gateCollides, gateMsgOf, gateGrid]
          · simp [appendRun, openByUrl, getWorksheet, addWorksheet, catchWNF, gridOf, setSheets,
                  rowValues, colValues, updateAt, appendRows, modifyGrid, ite_apply,
                  bind_is_mBind, pure_is_mPure, mBind, mPure, tick, getSt, throwE, h', hp, hlk,
                  hexp, htr, hcond, hmem, hcond.1, hcond.2, gateCollides, gateMsgOf, gateGrid]
            split <;> (try simp_all [mBind, mPure, tick, getSt, setSheets, setGrid, modifyGrid]) <;>
              (try (split <;> simp_all [mBind, mPure, tick, getSt, setSheets, setGrid, modifyGrid]))
        · by_cases hhe : rowPure g 1 = []
          · simp [appendRun, openByUrl, getWorksheet, addWorksheet, catchWNF, gridOf, setSheets,
                  rowValues, colValues, updateAt, appendRows, modifyGrid, ite_apply,
                  bind_is_mBind, pure_is_mPure, mBind, mPure, tick, getSt, throwE, h', hp, hlk,
                  hexp, htr, hcond, hhe, gateCollides, gateMsgOf, gateGrid]
          · simp [appendRun, openByUrl, getWorksheet, addWorksheet, catchWNF, gridOf, setSheets,
                  rowValues, colValues, updateAt, appendRows, modifyGrid, ite_apply,
                  bind_is_mBind, pure_is_mPure, mBind, mPure, tick, getSt, throwE, h', hp, hlk,
                  hexp, htr, hcond, hhe, gateCollides, gateMsgOf, gateGrid]
            split <;> (try simp_all [mBind, mPure, tick, getSt, setSheets, setGrid, modifyGrid]) <;>
              (try (split <;> simp_all [mBind, mPure, tick, getSt, setSheets, setGrid, modifyGrid]))
      · by_cases hhe : rowPure g 1 = []
        · simp [appendRun, openByUrl, getWorksheet, addWorksheet, catchWNF, gridOf, setSheets,
                rowValues, colValues, updateAt, appendRows, modifyGrid, ite_apply,
                bind_is_mBind, pure_is_mPure, mBind, mPure, tick, getSt, throwE, h', hp, hlk,
                hexp, htr, hhe, gateCollides, gateMsgOf, gateGrid]
        · simp [appendRun, openByUrl, getWorksheet, addWorksheet, catchWNF, gridOf, setSheets,
                rowValues, colValues, updateAt, appendRows, modifyGrid, ite_apply,
                bind_is_mBind, pure_is_mPure, mBind, mPure, tick, getSt, throwE, h', hp, hlk,
                hexp, htr, hhe, gateCollides, gateMsgOf, gateGrid]
          split <;> (try simp_all [mBind, mPure, tick, getSt, setSheets, setGrid, modifyGrid]) <;>
            (try (split <;> simp_all [mBind, mPure, tick, getSt, setSheets, setGrid, modifyGrid]))


theorem append_of_run_fst {st : St} {url ws : String} {data : List (String × PyVal)}
    {r : Bool × String} (h : (appendRun url data ws st).1 = .ok r) :
    (append_to_sheet st url data ws).1 = r := by
  unfold append_to_sheet
  rcases hrun : appendRun url data ws st with ⟨res, st1⟩
  rw [hrun] at h
  simp only at h
  subst h
  rfl

/-- C1 (amended): on a fault-free store holding the spreadsheet, for a
record whose `exp_code` entry is a non-empty string, `append_to_sheet`
returns a failure exactly when `check_exp_code_in_sheet` on that code
reports it as not available. -/
theorem claim1_gate_matches_check (st : St) (url ws c : String)
    (data : List (String × PyVal)) (hnf : NoFault st) (hp : st.present = true)
    (hexp : data.lookup "exp_code" = some (.str c)) (hc : c ≠ "") :
    ((append_to_sheet st url data ws).1.1 = false ↔
      (check_exp_code_in_sheet st url c ws).1 = false) := by
  have happ := append_of_run_fst (appendRun_fst hnf hp url ws data)
  rcases hlk : st.sheets.lookup ws with _ | g
  · have hch := check_of_run_ok hc (checkRun_noWs hnf url c ws hp hlk)
    rw [happ, hch]
    simp [gateCollides, gateGrid, hlk, hexp, rowPure, trimT]
  · have hch := check_of_run_ok hc (checkRun_noFault hnf url c ws hp g hlk)
    rw [happ, hch]
    by_cases hcont : "exp_code" ∈ rowPure g 1
    · have hne : ¬ rowPure g 1 = [] := by
        intro h0
        rw [h0] at hcont
        simp at hcont
      by_cases hm : c ∈ (colPure g ((rowPure g 1).indexOf "exp_code" + 1)).tail
      · simp [gateCollides, gateGrid, hlk, hexp, pyTruthy, hc, pyStrIn, hcont, hne, hm]
      · simp [gateCollides, gateGrid, hlk, hexp, pyTruthy, hc, pyStrIn, hcont, hne, hm]
    · simp [gateCollides, gateGrid, hlk, hexp, pyTruthy, hc, pyStrIn, hcont]


theorem lookup_setGrid_self {sh : List (String × Grid)} {ws : String} {g : Grid}
    (h : sh.lookup ws = some g) {g2 : Grid} : (setGrid sh ws g2).lookup ws = some g2 := by
  induction sh with
  | nil => simp [List.lookup] at h
  | cons p rest ih =>
    rcases p with ⟨n, gg⟩
    by_cases hn : n = ws
    · subst hn
      simp [setGrid, List.lookup]
    · simp only [setGrid, if_neg hn]
      have hb : (ws == n) = false := beq_eq_false_iff_ne.mpr (fun he => hn he.symm)
      simp only [List.lookup, hb] at h ⊢
      exact ih h

theorem setGrid_setGrid (sh : List (String × Grid)) (ws : String) (g1 g2 : Grid) :
    setGrid (setGrid sh ws g1) ws g2 = setGrid sh ws g2 := by
  induction sh with
  | nil => rfl
  | cons p rest ih =>
    rcases p with ⟨n, gg⟩
    by_cases hn : n = ws
    · subst hn
      simp [setGrid]
    · simp [setGrid, hn, ih]

theorem overlay_append (a b vs : List String) :
    overlay (a ++ b) a.length vs = a ++ overlay b 0 vs := by
  induction a with
  | nil => rfl
  | cons x a' ih =>
    rcases vs with _ | ⟨v, vs'⟩
    · simp [overlay]
    · simp only [List.cons_append, List.length_cons, overlay]
      rw [ih]

theorem overlay_nil_zero (vs : List String) : overlay [] 0 vs = vs := by
  induction vs with
  | nil => simp [overlay]
  | cons v vs' ih => simp [overlay, ih]

theorem overlay_replicate (k : Nat) (vs : List String) :
    overlay (List.replicate k "") 0 vs = vs ++ List.replicate (k - vs.length) "" := by
  induction vs generalizing k with
  | nil => cases k <;> simp [overlay]
  | cons v vs' ih =>
    cases k with
    | zero => simp [overlay, overlay_nil_zero]
    | succ j => simp [List.replicate_succ, overlay, ih j, Nat.succ_sub_succ]

theorem trimT_replicate (k : Nat) : trimT (List.replicate k "") = [] := by
  induction k with
  | zero => rfl
  | succ j ih => simp [List.replicate_succ, trimT, ih]

theorem trimT_append_replicate_empty (l : List String) (k : Nat) :
    trimT (l ++ List.replicate k "") = trimT l := by
  induction l with
  | nil => simp [trimT_replicate, trimT]
  | cons c cs ih => simp [trimT, ih]

theorem trimT_eq_self {l : List String} (h : ∀ x, l.getLast? = some x → x ≠ "") :
    trimT l = l := by
  induction l with
  | nil => rfl
  | cons c cs ih =>
    cases cs with
    | nil =>
      have hc : c ≠ "" := h c rfl
      simp [trimT, hc]
    | cons d ds =>
      have ih2 : trimT (d :: ds) = d :: ds :=
        ih (fun x hx => h x (by rw [List.getLast?_cons_cons]; exact hx))
      calc trimT (c :: d :: ds)
          = (match trimT (d :: ds) with
             | [] => if c = "" then [] else [c]
             | r => c :: r) := rfl
        _ = c :: d :: ds := by rw [ih2]

theorem flattenRecord_keys (data : List (String × PyVal)) :
    (flattenRecord data).map Prod.fst = data.map Prod.fst := by
  simp [flattenRecord, List.map_map]


theorem append_to_sheet_snd (st : St) (url ws : String) (data : List (String × PyVal)) :
    (append_to_sheet st url data ws).2 = (appendRun url data ws st).2 := by
  unfold append_to_sheet
  rcases hrun : appendRun url data ws st with ⟨res, st1⟩
  rcases res with e | r
  · cases e <;> rfl
  · rfl

set_option maxRecDepth 4000 in
set_option maxHeartbeats 2000000 in
theorem appendRun_widen {st : St} (hnf : NoFault st) (hp : st.present = true)
    (url ws : String) (data : List (String × PyVal)) (g : Grid)
    (hlk : st.sheets.lookup ws = some g)
    (hgate : gateCollides st data ws = false)
    (hhe : ¬ rowPure g 1 = [])
    (hnc : ((List.map Prod.fst (flattenRecord data)).filter
        (fun c => !(rowPure g 1).contains c)).isEmpty = false) :
    (appendRun url data ws st).1 = .ok (true, submitSuccessMsg) ∧
    (appendRun url data ws st).2.sheets = setGrid st.sheets ws
      (writeBlock g 0 (rowPure g 1).length
        [(List.map Prod.fst (flattenRecord data)).filter (fun c => !(rowPure g 1).contains c)]
       ++ [(rowPure g 1 ++ (List.map Prod.fst (flattenRecord data)).filter
            (fun c => !(rowPure g 1).contains c)).map
          (fun c => match (flattenRecord data).lookup c with
                    | some v => cellStr v
                    | Option.none => "")]) := by
  have h' : ∀ n, st.fault n = Option.none := hnf
  rcases hexp : data.lookup "exp_code" with _ | v
  · constructor <;>
      simp [appendRun, openByUrl, getWorksheet, addWorksheet, catchWNF, gridOf, setSheets,
            rowValues, colValues, updateAt, appendRows, modifyGrid, ite_apply,
            bind_is_mBind, pure_is_mPure, mBind, mPure, tick, getSt, throwE, h', hp, hlk,
            hexp, hhe, hnc, lookup_setGrid_self hlk, setGrid_setGrid] <;>
        (try (split <;>
          simp_all [mBind, mPure, tick, getSt, setSheets, setGrid_setGrid,
                    lookup_setGrid_self hlk, modifyGrid, gridOf]))
  · by_cases htr : pyTruthy v = true
    · by_cases hcont : ¬ rowPure g 1 = [] ∧ "exp_code" ∈ rowPure g 1
      · have hm : pyStrIn v ((colPure g ((rowPure g 1).indexOf "exp_code" + 1)).tail) = false := by
          simp [gateCollides, gateGrid, hlk, hexp, htr, hcont.1, hcont.2] at hgate
          simpa using hgate
        constructor <;>
          simp [appendRun, openByUrl, getWorksheet, addWorksheet, catchWNF, gridOf, setSheets,
                rowValues, colValues, updateAt, appendRows, modifyGrid, ite_apply,
                bind_is_mBind, pure_is_mPure, mBind, mPure, tick, getSt, throwE, h', hp, hlk,
                hexp, htr, hcont, hcont.1, hcont.2, hm, hhe, hnc,
                lookup_setGrid_self hlk, setGrid_setGrid] <;>
        (try (split <;>
          simp_all [mBind, mPure, tick, getSt, setSheets, setGrid_setGrid,
                    lookup_setGrid_self hlk, modifyGrid, gridOf]))
      · constructor <;>
          simp [appendRun, openByUrl, getWorksheet, addWorksheet, catchWNF, gridOf, setSheets,
                rowValues, colValues, updateAt, appendRows, modifyGrid, ite_apply,
                bind_is_mBind, pure_is_mPure, mBind, mPure, tick, getSt, throwE, h', hp, hlk,
                hexp, htr, hcont, hhe, hnc, lookup_setGrid_self hlk, setGrid_setGrid] <;>
        (try (split <;>
          simp_all [mBind, mPure, tick, getSt, setSheets, setGrid_setGrid,
                    lookup_setGrid_self hlk, modifyGrid, gridOf]))
    · constructor <;>
        simp [appendRun, openByUrl, getWorksheet, addWorksheet, catchWNF, gridOf, setSheets,
              rowValues, colValues, updateAt, appendRows, modifyGrid, ite_apply,
              bind_is_mBind, pure_is_mPure, mBind, mPure, tick, getSt, throwE, h', hp, hlk,
              hexp, htr, hhe, hnc, lookup_setGrid_self hlk, setGrid_setGrid] <;>
        (try (split <;>
          simp_all [mBind, mPure, tick, getSt, setSheets, setGrid_setGrid,
                    lookup_setGrid_self hlk, modifyGrid, gridOf]))


/-- C2 (amended): appending a gate-passing record with new field keys to
an existing collection with a non-empty (duplicate-free) header widens
the header by exactly the new keys on the right, keeps all previously
written rows unchanged, and appends one row whose cells sit at the
column positions of their keys in the widened header, empty where the
record has no value. -/
theorem claim2_schema_widening (st : St) (url ws : String) (g : Grid)
    (data : List (String × PyVal)) (hnf : NoFault st) (hp : st.present = true)
    (hg : st.sheets.lookup ws = some g) (hhe : rowPure g 1 ≠ [])
    (hkeys : "" ∉ data.map Prod.fst)
    (_hheadNodup : (rowPure g 1).Nodup) (_hkeyNodup : (data.map Prod.fst).Nodup)
    (hgate : gateCollides st data ws = false)
    (hnew : (data.map Prod.fst).filter (fun c => !(rowPure g 1).contains c) ≠ []) :
    (append_to_sheet st url data ws).1 = (true, submitSuccessMsg) ∧
    rowPure (gridOf (append_to_sheet st url data ws).2 ws) 1 =
      rowPure g 1 ++ (data.map Prod.fst).filter (fun c => !(rowPure g 1).contains c) ∧
    (gridOf (append_to_sheet st url data ws).2 ws).drop 1 =
      g.drop 1 ++ [(rowPure g 1 ++ (data.map Prod.fst).filter
          (fun c => !(rowPure g 1).contains c)).map
        (fun c => match (flattenRecord data).lookup c with
                  | some v => cellStr v
                  | Option.none => "")] := by
  have hkeysF : (List.map Prod.fst (flattenRecord data)) = data.map Prod.fst :=
    flattenRecord_keys data
  have hnc : ((List.map Prod.fst (flattenRecord data)).filter
      (fun c => !(rowPure g 1).contains c)).isEmpty = false := by
    rw [hkeysF]
    simpa [List.isEmpty_eq_false] using hnew
  obtain ⟨h1, h2⟩ := appendRun_widen hnf hp url ws data g hg hgate hhe hnc
  have hfst : (append_to_sheet st url data ws).1 = (true, submitSuccessMsg) :=
    append_of_run_fst h1
  have hgrid : gridOf (append_to_sheet st url data ws).2 ws =
      writeBlock g 0 (rowPure g 1).length
        [(data.map Prod.fst).filter (fun c => !(rowPure g 1).contains c)]
       ++ [(rowPure g 1 ++ (data.map Prod.fst).filter
            (fun c => !(rowPure g 1).contains c)).map
          (fun c => match (flattenRecord data).lookup c with
                    | some v => cellStr v
                    | Option.none => "")] := by
    rw [gridOf, append_to_sheet_snd, h2, hkeysF, lookup_setGrid_self hg]
    rfl
  rcases g with _ | ⟨row0, rest⟩
  · simp [rowPure, trimT] at hhe
  · have hwb : writeBlock (row0 :: rest) 0 (rowPure (row0 :: rest) 1).length
        [(data.map Prod.fst).filter (fun c => !(rowPure (row0 :: rest) 1).contains c)] =
        overlay row0 (rowPure (row0 :: rest) 1).length
          ((data.map Prod.fst).filter (fun c => !(rowPure (row0 :: rest) 1).contains c)) :: rest := by
      simp [writeBlock]
    rw [hwb] at hgrid
    have hrow1 : rowPure (row0 :: rest) 1 = trimT row0 := by simp [rowPure]
    refine ⟨hfst, ?_, ?_⟩
    · rw [hgrid]
      have hempty_notin : "" ∉ (data.map Prod.fst).filter
          (fun c => !(rowPure (row0 :: rest) 1).contains c) :=
        fun hmem => hkeys (List.mem_of_mem_filter hmem)
      obtain ⟨k, hk⟩ := trimT_append_replicate row0
      have hlast : ∀ x, ((rowPure (row0 :: rest) 1) ++ (data.map Prod.fst).filter
          (fun c => !(rowPure (row0 :: rest) 1).contains c)).getLast? = some x → x ≠ "" := by
        intro x hx
        rw [List.getLast?_append] at hx
        rcases hgl : ((data.map Prod.fst).filter
            (fun c => !(rowPure (row0 :: rest) 1).contains c)).getLast? with _ | y
        · exact absurd (List.getLast?_eq_none_iff.mp hgl) hnew
        · rw [hgl] at hx
          simp only [Option.or_some, Option.some.injEq] at hx
          subst hx
          exact fun he => hempty_notin (he ▸ List.mem_of_getLast?_eq_some hgl)
      calc rowPure (overlay row0 (rowPure (row0 :: rest) 1).length
              ((data.map Prod.fst).filter (fun c => !(rowPure (row0 :: rest) 1).contains c))
            :: (rest ++ [(rowPure (row0 :: rest) 1 ++ (data.map Prod.fst).filter
                (fun c => !(rowPure (row0 :: rest) 1).contains c)).map
              (fun c => match (flattenRecord data).lookup c with
                        | some v => cellStr v
                        | Option.none => "")])) 1
          = trimT (overlay row0 (rowPure (row0 :: rest) 1).length
              ((data.map Prod.fst).filter (fun c => !(rowPure (row0 :: rest) 1).contains c))) := by
            simp [rowPure]
        _ = trimT (overlay (trimT row0 ++ List.replicate k "") (trimT row0).length
              ((data.map Prod.fst).filter (fun c => !(rowPure (row0 :: rest) 1).contains c))) := by
            rw [hrow1, ← hk]
        _ = trimT (trimT row0 ++ overlay (List.replicate k "") 0
              ((data.map Prod.fst).filter (fun c => !(rowPure (row0 :: rest) 1).contains c))) := by
            rw [overlay_append]
        _ = trimT ((trimT row0 ++ ((data.map Prod.fst).filter
              (fun c => !(rowPure (row0 :: rest) 1).contains c))) ++
              List.replicate (k - ((data.map Prod.fst).filter
                (fun c => !(rowPure (row0 :: rest) 1).contains c)).length) "") := by
            rw [overlay_replicate, List.append_assoc]
        _ = trimT (trimT row0 ++ ((data.map Prod.fst).filter
              (fun c => !(rowPure (row0 :: rest) 1).contains c))) := by
            rw [trimT_append_replicate_empty]
        _ = rowPure (row0 :: rest) 1 ++ (data.map Prod.fst).filter
              (fun c => !(rowPure (row0 :: rest) 1).contains c) := by
            rw [← hrow1] at *
            exact trimT_eq_self hlast
    · rw [hgrid]
      simp



theorem checkRun_ok_shape {st : St} {url code ws : String} {r : Bool × String} {st1 : St}
    (hrun : checkRun url code ws st = (.ok r, st1)) :
    r = (true, availNewWsMsg code ws) ∨ r = (true, noColMsg) ∨
    r = (true, availMsg code ws) ∨ r = (false, collMsg code ws) := by
  rcases hf0 : st.fault st.clock with _ | e0
  · by_cases hp : st.present = true
    · rcases hf1 : st.fault (st.clock + 1) with _ | e1
      · rcases hlk : st.sheets.lookup ws with _ | g
        · have h1 : (checkRun url code ws st).1 = .ok (true, availNewWsMsg code ws) := by
            simp [checkRun, openByUrl, getWorksheet, catchWNF, bind_is_mBind, pure_is_mPure,
                  mBind, mPure, tick, getSt, throwE, hf0, hp, hf1, hlk]
          rw [hrun] at h1
          simp only [Except.ok.injEq] at h1
          exact Or.inl h1
        · rcases hf2 : st.fault (st.clock + 1 + 1) with _ | e2
          · by_cases hcont : "exp_code" ∈ rowPure g 1
            · rcases hf3 : st.fault (st.clock + 1 + 1 + 1) with _ | e3
              · by_cases hmem : code ∈ (colPure g ((rowPure g 1).indexOf "exp_code" + 1)).tail
                · have h1 : (checkRun url code ws st).1 = .ok (false, collMsg code ws) := by
                    simp [checkRun, openByUrl, getWorksheet, rowValues, colValues, catchWNF,
                          gridOf, bind_is_mBind, pure_is_mPure, mBind, mPure, tick, getSt,
                          throwE, hf0, hp, hf1, hlk, hf2, hcont, hf3, hmem]
                  rw [hrun] at h1
                  simp only [Except.ok.injEq] at h1
                  exact Or.inr (Or.inr (Or.inr h1))
                · have h1 : (checkRun url code ws st).1 = .ok (true, availMsg code ws) := by
                    simp [checkRun, openByUrl, getWorksheet, rowValues, colValues, catchWNF,
                          gridOf, bind_is_mBind, pure_is_mPure, mBind, mPure, tick, getSt,
                          throwE, hf0, hp, hf1, hlk, hf2, hcont, hf3, hmem]
                  rw [hrun] at h1
                  simp only [Except.ok.injEq] at h1
                  exact Or.inr (Or.inr (Or.inl h1))
              · have h1 : (checkRun url code ws st).1 = .error e3 := by
                  simp [checkRun, openByUrl, getWorksheet, rowValues, colValues, catchWNF,
                        gridOf, bind_is_mBind, pure_is_mPure, mBind, mPure, tick, getSt,
                        throwE, hf0, hp, hf1, hlk, hf2, hcont, hf3]
                rw [hrun] at h1
                simp at h1
            · have h1 : (checkRun url code ws st).1 = .ok (true, noColMsg) := by
                simp [checkRun, openByUrl, getWorksheet, rowValues, catchWNF, gridOf,
                      bind_is_mBind, pure_is_mPure, mBind, mPure, tick, getSt, throwE,
                      hf0, hp, hf1, hlk, hf2, hcont]
              rw [hrun] at h1
              simp only [Except.ok.injEq] at h1
              exact Or.inr (Or.inl h1)
          · have h1 : (checkRun url code ws st).1 = .error e2 := by
              simp [checkRun, openByUrl, getWorksheet, rowValues, catchWNF, gridOf,
                    bind_is_mBind, pure_is_mPure, mBind, mPure, tick, getSt, throwE,
                    hf0, hp, hf1, hlk, hf2]
            rw [hrun] at h1
            simp at h1
      · rcases e1 with _ | _ | m
        · have h1 : (checkRun url code ws st).1 = .error .spreadsheetNotFound := by
            simp [checkRun, openByUrl, getWorksheet, catchWNF, bind_is_mBind, pure_is_mPure,
                  mBind, mPure, tick, getSt, throwE, hf0, hp, hf1]
          rw [hrun] at h1
          simp at h1
        · have h1 : (checkRun url code ws st).1 = .ok (true, availNewWsMsg code ws) := by
            simp [checkRun, openByUrl, getWorksheet, catchWNF, bind_is_mBind, pure_is_mPure,
                  mBind, mPure, tick, getSt, throwE, hf0, hp, hf1]
          rw [hrun] at h1
          simp only [Except.ok.injEq] at h1
          exact Or.inl h1
        · have h1 : (checkRun url code ws st).1 = .error (.apiError m) := by
            simp [checkRun, openByUrl, getWorksheet, catchWNF, bind_is_mBind, pure_is_mPure,
                  mBind, mPure, tick, getSt, throwE, hf0, hp, hf1]
          rw [hrun] at h1
          simp at h1
    · have h1 : (checkRun url code ws st).1 = .error .spreadsheetNotFound := by
        simp [checkRun, openByUrl, bind_is_mBind, pure_is_mPure, mBind, mPure, tick, getSt,
              throwE, hf0, hp]
      rw [hrun] at h1
      simp at h1
  · have h1 : (checkRun url code ws st).1 = .error e0 := by
      simp [checkRun, openByUrl, bind_is_mBind, pure_is_mPure, mBind, mPure, tick, getSt,
            throwE, hf0]
    rw [hrun] at h1
    simp at h1

/-- C6: an empty candidate key is rejected with the empty-key message
before the store is ever consulted, whatever the store state or fault
behaviour. -/
theorem claim6_empty_key (st : St) (url ws : String) :
    check_exp_code_in_sheet st url "" ws = (false, emptyCodeMsg) := by
  simp [check_exp_code_in_sheet]

/-- C10: when the whole spreadsheet is missing, `check` reports the key
as available together with the cannot-verify warning, for every
non-empty candidate. -/
theorem claim10_spreadsheet_missing (st : St) (url code ws : String)
    (hnf : NoFault st) (hp : st.present = false) (hc : code ≠ "") :
    check_exp_code_in_sheet st url code ws = (true, snfWarnMsg) := by
  unfold check_exp_code_in_sheet
  rw [if_neg hc, checkRun_noSpreadsheet hnf url code ws hp]

theorem claim10_spreadsheet_missing_witness :
    check_exp_code_in_sheet
      { present := false, sheets := [], fault := fun _ => Option.none, clock := 0 }
      "url" "E1" "tab" = (true, snfWarnMsg) :=
  claim10_spreadsheet_missing _ "url" "E1" "tab" (fun _ => rfl) rfl (by decide)

theorem mBind_mPure {α β : Type} (a : α) (f : α → M β) : mBind (mPure a) f = f a := rfl

theorem mPure_ok {α : Type} {a : α} {st : St} {r : α} {st1 : St}
    (h : mPure a st = (.ok r, st1)) : r = a := by
  simp only [mPure, Prod.mk.injEq, Except.ok.injEq] at h
  exact h.1.symm

theorem mBind_ok {α β : Type} (P : β → Prop) {x : M α} {f : α → M β}
    (hf : ∀ a st r st1, f a st = (.ok r, st1) → P r)
    {st : St} {r : β} {st1 : St} (h : mBind x f st = (.ok r, st1)) : P r := by
  unfold mBind at h
  split at h
  · exact hf _ _ _ _ h
  · simp at h

/-- Whenever `appendRun` returns normally (no exception reaches the
`except` clauses), the result is one of the two documented outcomes —
success, or the duplicate-gate rejection with its collision message —
for every store state and fault behaviour. -/
theorem appendRun_ok_shape {url ws : String} {data : List (String × PyVal)}
    {st : St} {r : Bool × String} {st1 : St}
    (hrun : appendRun url data ws st = (.ok r, st1)) :
    r = (true, submitSuccessMsg) ∨ r = (false, gateMsgOf data ws) := by
  simp only [appendRun, bind_is_mBind, pure_is_mPure, mBind_mPure] at hrun
  refine mBind_ok (fun z => z = (true, submitSuccessMsg) ∨ z = (false, gateMsgOf data ws)) ?_ hrun
  intro a1 stA rA stA1 h1
  refine mBind_ok (fun z => z = (true, submitSuccessMsg) ∨ z = (false, gateMsgOf data ws)) ?_ h1
  intro found stB rB stB1 h2
  by_cases hfound : (!found) = true
  · rw [if_pos hfound] at h2
    refine mBind_ok (fun z => z = (true, submitSuccessMsg) ∨ z = (false, gateMsgOf data ws)) ?_ h2
    intro a3 stC rC stC1 h3
    rcases hexp : data.lookup "exp_code" with _ | v
    · simp only [hexp] at h3
      left
      refine mBind_ok (fun z => z = (true, submitSuccessMsg)) ?_ h3
      intro eh stE rE stE1 hE
      split at hE
      · exact mBind_ok (fun z => z = (true, submitSuccessMsg)) (fun a st r2 st2 hu => mPure_ok hu) hE
      · split at hE
        · exact mBind_ok (fun z => z = (true, submitSuccessMsg)) (fun a st r2 st2 hu =>
            mBind_ok (fun z => z = (true, submitSuccessMsg)) (fun b st3 r3 st4 hv => mPure_ok hv) hu) hE
        · exact mBind_ok (fun z => z = (true, submitSuccessMsg)) (fun a st r2 st2 hu => mPure_ok hu) hE
    · simp only [hexp] at h3
      by_cases htr : pyTruthy v = true
      · rw [if_pos htr] at h3
        refine mBind_ok (fun z => z = (true, submitSuccessMsg) ∨ z = (false, gateMsgOf data ws)) ?_ h3
        intro header stH rH stH1 hH
        by_cases hhe : (!header.isEmpty && header.contains "exp_code") = true
        · rw [if_pos hhe] at hH
          refine mBind_ok (fun z => z = (true, submitSuccessMsg) ∨ z = (false, gateMsgOf data ws)) ?_ hH
          intro codes stK rK stK1 hK
          by_cases hin : pyStrIn v (codes.drop 1) = true
          · rw [if_pos hin] at hK
            right
            rw [mPure_ok hK]
            simp [gateMsgOf, hexp]
          · rw [if_neg hin] at hK
            left
            refine mBind_ok (fun z => z = (true, submitSuccessMsg)) ?_ hK
            intro eh stE rE stE1 hE
            split at hE
            · exact mBind_ok (fun z => z = (true, submitSuccessMsg)) (fun a st r2 st2 hu => mPure_ok hu) hE
            · split at hE
              · exact mBind_ok (fun z => z = (true, submitSuccessMsg)) (fun a st r2 st2 hu =>
                  mBind_ok (fun z => z = (true, submitSuccessMsg)) (fun b st3 r3 st4 hv => mPure_ok hv) hu) hE
              · exact mBind_ok (fun z => z = (true, submitSuccessMsg)) (fun a st r2 st2 hu => mPure_ok hu) hE
        · rw [if_neg hhe] at hH
          left
          refine mBind_ok (fun z => z = (true, submitSuccessMsg)) ?_ hH
          intro eh stE rE stE1 hE
          split at hE
          · exact mBind_ok (fun z => z = (true, submitSuccessMsg)) (fun a st r2 st2 hu => mPure_ok hu) hE
          · split at hE
            · exact mBind_ok (fun z => z = (true, submitSuccessMsg)) (fun a st r2 st2 hu =>
                mBind_ok (fun z => z = (true, submitSuccessMsg)) (fun b st3 r3 st4 hv => mPure_ok hv) hu) hE
            · exact mBind_ok (fun z => z = (true, submitSuccessMsg)) (fun a st r2 st2 hu => mPure_ok hu) hE
      · rw [if_neg htr] at h3
        left
        refine mBind_ok (fun z => z = (true, submitSuccessMsg)) ?_ h3
        intro eh stE rE stE1 hE
        split at hE
        · exact mBind_ok (fun z => z = (true, submitSuccessMsg)) (fun a st r2 st2 hu => mPure_ok hu) hE
        · split at hE
          · exact mBind_ok (fun z => z = (true, submitSuccessMsg)) (fun a st r2 st2 hu =>
              mBind_ok (fun z => z = (true, submitSuccessMsg)) (fun b st3 r3 st4 hv => mPure_ok hv) hu) hE
          · exact mBind_ok (fun z => z = (true, submitSuccessMsg)) (fun a st r2 st2 hu => mPure_ok hu) hE
  · rw [if_neg hfound] at h2
    rcases hexp : data.lookup "exp_code" with _ | v
    · simp only [hexp] at h2
      left
      refine mBind_ok (fun z => z = (true, submitSuccessMsg)) ?_ h2
      intro eh stE rE stE1 hE
      split at hE
      · exact mBind_ok (fun z => z = (true, submitSuccessMsg)) (fun a st r2 st2 hu => mPure_ok hu) hE
      · split at hE
        · exact mBind_ok (fun z => z = (true, submitSuccessMsg)) (fun a st r2 st2 hu =>
            mBind_ok (fun z => z = (true, submitSuccessMsg)) (fun b st3 r3 st4 hv => mPure_ok hv) hu) hE
        · exact mBind_ok (fun z => z = (true, submitSuccessMsg)) (fun a st r2 st2 hu => mPure_ok hu) hE
    · simp only [hexp] at h2
      by_cases htr : pyTruthy v = true
      · rw [if_pos htr] at h2
        refine mBind_ok (fun z => z = (true, submitSuccessMsg) ∨ z = (false, gateMsgOf data ws)) ?_ h2
        intro header stH rH stH1 hH
        by_cases hhe : (!header.isEmpty && header.contains "exp_code") = true
        · rw [if_pos hhe] at hH
          refine mBind_ok (fun z => z = (true, submitSuccessMsg) ∨ z = (false, gateMsgOf data ws)) ?_ hH
          intro codes stK rK stK1 hK
          by_cases hin : pyStrIn v (codes.drop 1) = true
          · rw [if_pos hin] at hK
            right
            rw [mPure_ok hK]
            simp [gateMsgOf, hexp]
          · rw [if_neg hin] at hK
            left
            refine mBind_ok (fun z => z = (true, submitSuccessMsg)) ?_ hK
            intro eh stE rE stE1 hE
            split at hE
            · exact mBind_ok (fun z => z = (true, submitSuccessMsg)) (fun a st r2 st2 hu => mPure_ok hu) hE
            · split at hE
              · exact mBind_ok (fun z => z = (true, submitSuccessMsg)) (fun a st r2 st2 hu =>
                  mBind_ok (fun z => z = (true, submitSuccessMsg)) (fun b st3 r3 st4 hv => mPure_ok hv) hu) hE
              · exact mBind_ok (fun z => z = (true, submitSuccessMsg)) (fun a st r2 st2 hu => mPure_ok hu) hE
        · rw [if_neg hhe] at hH
          left
          refine mBind_ok (fun z => z = (true, submitSuccessMsg)) ?_ hH
          intro eh stE rE stE1 hE
          split at hE
          · exact mBind_ok (fun z => z = (true, submitSuccessMsg)) (fun a st r2 st2 hu => mPure_ok hu) hE
          · split at hE
            · exact mBind_ok (fun z => z = (true, submitSuccessMsg)) (fun a st r2 st2 hu =>
                mBind_ok (fun z => z = (true, submitSuccessMsg)) (fun b st3 r3 st4 hv => mPure_ok hv) hu) hE
            · exact mBind_ok (fun z => z = (true, submitSuccessMsg)) (fun a st r2 st2 hu => mPure_ok hu) hE
      · rw [if_neg htr] at h2
        left
        refine mBind_ok (fun z => z = (true, submitSuccessMsg)) ?_ h2
        intro eh stE rE stE1 hE
        split at hE
        · exact mBind_ok (fun z => z = (true, submitSuccessMsg)) (fun a st r2 st2 hu => mPure_ok hu) hE
        · split at hE
          · exact mBind_ok (fun z => z = (true, submitSuccessMsg)) (fun a st r2 st2 hu =>
              mBind_ok (fun z => z = (true, submitSuccessMsg)) (fun b st3 r3 st4 hv => mPure_ok hv) hu) hE
          · exact mBind_ok (fun z => z = (true, submitSuccessMsg)) (fun a st r2 st2 hu => mPure_ok hu) hE

/-- C5 (amended): both operations always return one of their documented
(boolean, message) outcomes, for every store state and fault behaviour
— no exception escapes.  `check` returns one of its six documented
messages or the catch-all not-available failure; `append` returns
success, the duplicate-gate rejection, the dedicated
spreadsheet-not-found failure, or the catch-all failure.  A transport
or auth failure raised at the point the store is first queried makes
`check` report not-available and `append` report failure, each with a
message carrying the failure text.  The not-found exceptions keep
their dedicated handling — in particular `SpreadsheetNotFound` makes
`check` report available with a warning and makes `append` report
failure with its dedicated not-found message. -/
theorem claim5_error_handling :
    (∀ (st : St) (url code ws : String),
      check_exp_code_in_sheet st url code ws = (false, emptyCodeMsg) ∨
      check_exp_code_in_sheet st url code ws = (true, availNewWsMsg code ws) ∨
      check_exp_code_in_sheet st url code ws = (true, noColMsg) ∨
      check_exp_code_in_sheet st url code ws = (true, availMsg code ws) ∨
      check_exp_code_in_sheet st url code ws = (false, collMsg code ws) ∨
      check_exp_code_in_sheet st url code ws = (true, snfWarnMsg) ∨
      (∃ e, e ≠ PyErr.spreadsheetNotFound ∧
        check_exp_code_in_sheet st url code ws = (false, checkErrMsg e))) ∧
    (∀ (st : St) (url ws : String) (data : List (String × PyVal)),
      (append_to_sheet st url data ws).1 = (true, submitSuccessMsg) ∨
      (append_to_sheet st url data ws).1 = (false, gateMsgOf data ws) ∨
      (append_to_sheet st url data ws).1 = (false, appendSnfMsg url) ∨
      (∃ e, e ≠ PyErr.spreadsheetNotFound ∧
        (append_to_sheet st url data ws).1 = (false, appendErrMsg e))) ∧
    (∀ (st : St) (url code ws m : String), code ≠ "" →
      st.fault st.clock = some (.apiError m) →
      check_exp_code_in_sheet st url code ws = (false, checkErrMsg (.apiError m))) ∧
    (∀ (st : St) (url ws : String) (data : List (String × PyVal)) (m : String),
      st.fault st.clock = some (.apiError m) →
      (append_to_sheet st url data ws).1 = (false, appendErrMsg (.apiError m))) ∧
    (∀ (st : St) (url ws : String) (data : List (String × PyVal)),
      st.fault st.clock = Option.none → st.present = false →
      (append_to_sheet st url data ws).1 = (false, appendSnfMsg url)) := by
  refine ⟨?_, ?_, ?_, ?_, ?_⟩
  · intro st url code ws
    by_cases hc : code = ""
    · left
      simp [check_exp_code_in_sheet, hc]
    · unfold check_exp_code_in_sheet
      rw [if_neg hc]
      rcases hrun : checkRun url code ws st with ⟨res, st1⟩
      rcases res with e | r
      · rcases e with _ | _ | m
        · simp
        · right; right; right; right; right; right
          exact ⟨.worksheetNotFound, by simp, rfl⟩
        · right; right; right; right; right; right
          exact ⟨.apiError m, by simp, rfl⟩
      · rcases checkRun_ok_shape hrun with h | h | h | h <;> subst h <;> simp
  · intro st url ws data
    rcases hrun : appendRun url data ws st with ⟨res, st1⟩
    rcases res with e | r
    · rcases e with _ | _ | m
      · right; right; left
        unfold append_to_sheet
        rw [hrun]
      · right; right; right
        refine ⟨.worksheetNotFound, by simp, ?_⟩
        unfold append_to_sheet
        rw [hrun]
      · right; right; right
        refine ⟨.apiError m, by simp, ?_⟩
        unfold append_to_sheet
        rw [hrun]
    · have hval : (append_to_sheet st url data ws).1 = r := by
        unfold append_to_sheet
        rw [hrun]
      rcases appendRun_ok_shape hrun with h | h
      · left
        rw [hval, h]
      · right; left
        rw [hval, h]
  · intro st url code ws m hc hf
    unfold check_exp_code_in_sheet
    rw [if_neg hc]
    simp [checkRun, openByUrl, bind_is_mBind, pure_is_mPure, mBind, mPure, tick, getSt,
          throwE, hf]
  · intro st url ws data m hf
    unfold append_to_sheet
    simp [appendRun, openByUrl, bind_is_mBind, pure_is_mPure, mBind, mPure, tick, getSt,
          throwE, hf]
  · intro st url ws data hf hp
    unfold append_to_sheet
    simp [appendRun, openByUrl, bind_is_mBind, pure_is_mPure, mBind, mPure, tick, getSt,
          throwE, hf, hp]

theorem claim5_error_handling_witness :
    check_exp_code_in_sheet
      { present := true, sheets := [], fault := fun _ => some (.apiError "boom"), clock := 0 }
      "url" "E1" "tab" = (false, checkErrMsg (.apiError "boom")) ∧
    (append_to_sheet
      { present := true, sheets := [], fault := fun _ => some (.apiError "boom"), clock := 0 }
      "url" [] "tab").1 = (false, appendErrMsg (.apiError "boom")) ∧
    (append_to_sheet
      { present := false, sheets := [], fault := fun _ => Option.none, clock := 0 }
      "url" [] "tab").1 = (false, appendSnfMsg "url") :=
  ⟨claim5_error_handling.2.2.1 _ "url" "E1" "tab" "boom" (by decide) rfl,
   claim5_error_handling.2.2.2.1 _ "url" "tab" [] "boom" rfl,
   claim5_error_handling.2.2.2.2 _ "url" "tab" [] rfl rfl⟩

/-- C5, counterexample to the claim as stated: the store itself raises
`SpreadsheetNotFound` while `check` queries it, yet the result is
available (`true`), not the not-available result the claim requires for
every failure. -/
theorem claim5_error_handling_counterexample :
    check_exp_code_in_sheet
      { present := false, sheets := [], fault := fun _ => Option.none, clock := 0 }
      "url" "X1" "tab" = (true, snfWarnMsg) := rfl


theorem skipWs_cons_of {c : Char} (h : isWsChar c = false) (t : List Char) :
    skipWs (c :: t) = c :: t := by
  simp [skipWs, h]

theorem isDig_ofNat {d : Nat} (h : d < 10) : isDig (Char.ofNat (48 + d)) = true := by
  interval_cases d <;> decide

theorem ofNat_digit_ne_zero {d : Nat} (h0 : 1 ≤ d) (h : d < 10) :
    Char.ofNat (48 + d) ≠ '0' := by
  interval_cases d <;> decide

theorem ofNat_digit_one_nine {d : Nat} (h0 : 1 ≤ d) (h : d < 10) :
    '1' ≤ Char.ofNat (48 + d) ∧ Char.ofNat (48 + d) ≤ '9' := by
  interval_cases d <;> exact ⟨by decide, by decide⟩

theorem toNat_ofNat_digit {d : Nat} (h : d < 10) : (Char.ofNat (48 + d)).toNat = 48 + d := by
  interval_cases d <;> decide

theorem hexVal_hexDigitChar {d : Nat} (h : d < 16) : hexVal (hexDigitChar d) = some d := by
  interval_cases d <;> decide

theorem natDigits_props (n : Nat) :
    ∃ d ds, natDigits n = Char.ofNat (48 + d) :: ds ∧ d < 10 ∧ (1 ≤ n → 1 ≤ d) ∧
      ∀ c ∈ natDigits n, isDig c = true := by
  induction n using Nat.strong_induction_on with
  | _ n ih =>
    rw [natDigits]
    split
    next h =>
      refine ⟨n, [], rfl, h, fun h1 => h1, ?_⟩
      intro c hc
      simp only [List.mem_singleton] at hc
      subst hc
      exact isDig_ofNat h
    next h =>
      obtain ⟨d, ds, hd, hd10, hd1, hall⟩ :=
        ih (n / 10) (Nat.div_lt_self (by omega) (by omega))
      refine ⟨d, ds ++ [Char.ofNat (48 + n % 10)], ?_, hd10, fun _ => hd1 (by omega), ?_⟩
      · rw [hd]
        simp
      · intro c hc
        rcases List.mem_append.mp hc with hc1 | hc1
        · exact hall c hc1
        · simp only [List.mem_singleton] at hc1
          subst hc1
          exact isDig_ofNat (Nat.mod_lt _ (by omega))

theorem natFromDigits_append (a : Nat) (xs ys : List Char) :
    natFromDigits a (xs ++ ys) = natFromDigits (natFromDigits a xs) ys := by
  induction xs generalizing a with
  | nil => rfl
  | cons c cs ih => exact ih (a * 10 + (c.toNat - 48))

theorem natFromDigits_natDigits (n : Nat) :
    ∀ a, natFromDigits a (natDigits n) = a * 10 ^ (natDigits n).length + n := by
  induction n using Nat.strong_induction_on with
  | _ n ih =>
    intro a
    rw [natDigits]
    split
    next h =>
      have e1 : natFromDigits a [Char.ofNat (48 + n)] =
          a * 10 + ((Char.ofNat (48 + n)).toNat - 48) := rfl
      rw [e1, toNat_ofNat_digit h, List.length_singleton, pow_one]
      omega
    next h =>
      rw [natFromDigits_append, ih (n / 10) (Nat.div_lt_self (by omega) (by omega)) a]
      have e1 : ∀ X : Nat, natFromDigits X [Char.ofNat (48 + n % 10)] =
          X * 10 + ((Char.ofNat (48 + n % 10)).toNat - 48) := fun X => rfl
      rw [e1, toNat_ofNat_digit (Nat.mod_lt n (by omega) : n % 10 < 10),
          List.length_append, List.length_singleton]
      have hdm : n / 10 * 10 + n % 10 = n := by omega
      have hmod : 48 + n % 10 - 48 = n % 10 := by omega
      rw [hmod, pow_succ]
      calc (a * 10 ^ (natDigits (n / 10)).length + n / 10) * 10 + n % 10
          = a * (10 ^ (natDigits (n / 10)).length * 10) + (n / 10 * 10 + n % 10) := by ring
        _ = a * (10 ^ (natDigits (n / 10)).length * 10) + n := by rw [hdm]

theorem spanDigits_stop {rest : List Char} (h : numStop rest) : spanDigits rest = ([], rest) := by
  cases rest with
  | nil => rfl
  | cons c cs => simp [spanDigits, h.1]

theorem spanDigits_append {ds : List Char} (hds : ∀ c ∈ ds, isDig c = true)
    {rest : List Char} (hr : numStop rest) : spanDigits (ds ++ rest) = (ds, rest) := by
  induction ds with
  | nil => simpa using spanDigits_stop hr
  | cons c cs ih =>
    have hc := hds c (by simp)
    simp [spanDigits, hc, ih (fun x hx => hds x (by simp [hx]))]

theorem digit_char_facts {d : Nat} (h : d < 10) :
    isWsChar (Char.ofNat (48 + d)) = false ∧ Char.ofNat (48 + d) ≠ '"' ∧
    Char.ofNat (48 + d) ≠ '[' ∧ Char.ofNat (48 + d) ≠ '\x7b' ∧
    Char.ofNat (48 + d) ≠ 't' ∧ Char.ofNat (48 + d) ≠ 'f' ∧
    Char.ofNat (48 + d) ≠ 'n' ∧ Char.ofNat (48 + d) ≠ 'N' ∧
    Char.ofNat (48 + d) ≠ 'I' ∧ Char.ofNat (48 + d) ≠ ']' ∧
    Char.ofNat (48 + d) ≠ '\x7d' ∧ Char.ofNat (48 + d) ≠ ',' ∧
    Char.ofNat (48 + d) ≠ '-' := by
  interval_cases d <;> decide

theorem parseIntPart_natDigits (n : Nat) {rest : List Char} (hr : numStop rest) :
    parseIntPart (natDigits n ++ rest) = some (natDigits n, rest) := by
  rcases Nat.eq_zero_or_pos n with hn | hn
  · subst hn
    have h0 : natDigits 0 = ['0'] := by rw [natDigits]; decide
    rw [h0]
    simp [parseIntPart]
  · obtain ⟨d, ds, hd, hd10, hd1, hall⟩ := natDigits_props n
    have hd1' := hd1 hn
    have hne0 := ofNat_digit_ne_zero hd1' hd10
    have h19 := ofNat_digit_one_nine hd1' hd10
    rw [hd]
    simp only [List.cons_append, parseIntPart, hne0, if_false, h19, and_true, if_true]
    rw [spanDigits_append (fun x hx => hall x (by rw [hd]; exact List.mem_cons_of_mem _ hx)) hr]

theorem parseNumAfterInt_int (neg : Bool) (ds : List Char) {rest : List Char} (hr : numStop rest) :
    parseNumAfterInt neg ds rest =
      some (.int (if neg then -(Int.ofNat (natFromDigits 0 ds))
                  else Int.ofNat (natFromDigits 0 ds)), rest) := by
  cases rest with
  | nil => simp [parseNumAfterInt]
  | cons c cs =>
    obtain ⟨h1, h2, h3, h4⟩ := hr
    simp [parseNumAfterInt, h2, h3, h4]

theorem parseValue_int (n : Int) (f : Nat) {rest : List Char} (hr : numStop rest) :
    parseValue (f + 1) (intRepr n ++ rest) = some (.int n, rest) := by
  obtain ⟨d, ds, hd, hd10, hd1, hall⟩ := natDigits_props n.natAbs
  have hfacts := digit_char_facts hd10
  have hIP := parseIntPart_natDigits n.natAbs hr
  have hNF0 : natFromDigits 0 (natDigits n.natAbs) = n.natAbs := by
    rw [natFromDigits_natDigits]
    simp
  by_cases hn : n < 0
  · have hir : intRepr n = '-' :: natDigits n.natAbs := by simp [intRepr, hn]
    have hhead : (natDigits n.natAbs ++ rest).head? = some (Char.ofNat (48 + d)) := by
      rw [hd]
      rfl
    rw [hir, List.cons_append]
    simp only [parseValue]
    rw [skipWs_cons_of (by decide)]
    simp only [parseNumber]
    simp [hhead, hfacts.2.2.2.2.2.2.2.2.1, hIP, parseNumAfterInt_int true _ hr, hNF0]
    rw [abs_of_nonpos (le_of_lt hn)]
    ring
  · have hir : intRepr n = natDigits n.natAbs := by simp [intRepr, hn]
    have hfold : (Char.ofNat (48 + d)) :: (ds ++ rest) = natDigits n.natAbs ++ rest := by
      rw [hd]
      rfl
    rw [hir, hd, List.cons_append]
    simp only [parseValue]
    rw [skipWs_cons_of hfacts.1]
    simp only [parseNumber]
    simp [hfacts.2.1, hfacts.2.2.1, hfacts.2.2.2.1, hfacts.2.2.2.2.1, hfacts.2.2.2.2.2.1,
          hfacts.2.2.2.2.2.2.1, hfacts.2.2.2.2.2.2.2.1, hfacts.2.2.2.2.2.2.2.2.1,
          hfacts.2.2.2.2.2.2.2.2.2.2.2.2, isDig_ofNat hd10, hfold, hIP,
          parseNumAfterInt_int false _ hr, hNF0]
    omega

theorem hex4_digits {t : Nat} (h : t < 32) :
    hex4 '0' '0' (hexDigitChar (t / 16)) (hexDigitChar (t % 16)) = some t := by
  have h1 : hexVal (hexDigitChar (t / 16)) = some (t / 16) :=
    hexVal_hexDigitChar (by omega)
  have h2 : hexVal (hexDigitChar (t % 16)) = some (t % 16) := hexVal_hexDigitChar (by omega)
  have h0 : hexVal '0' = some 0 := by decide
  simp only [hex4, h0, h1, h2, Option.bind_eq_bind, Option.some_bind, bind, pure]
  simp only [Option.some.injEq]
  omega

theorem decodeEscape_u {t : Nat} (h : t < 32) (tail : List Char) :
    decodeEscape ('u' :: '0' :: '0' :: hexDigitChar (t / 16) :: hexDigitChar (t % 16) :: tail)
      = some (Char.ofNat t, tail) := by
  have hlt : t < 0xD800 ∨ 0xE000 ≤ t := Or.inl (by omega)
  simp [decodeEscape, decodeU, hex4_digits h, hlt]

theorem decodeEscape_lit_bs (tail : List Char) : decodeEscape ('\\' :: tail) = some ('\\', tail) := by
  simp [decodeEscape]

theorem decodeEscape_lit_quote (tail : List Char) : decodeEscape ('"' :: tail) = some ('"', tail) := by
  simp [decodeEscape]

theorem decodeEscape_lit_b (tail : List Char) : decodeEscape ('b' :: tail) = some ('\x08', tail) := by
  simp [decodeEscape]

theorem decodeEscape_lit_f (tail : List Char) : decodeEscape ('f' :: tail) = some ('\x0c', tail) := by
  simp [decodeEscape]

theorem decodeEscape_lit_n (tail : List Char) : decodeEscape ('n' :: tail) = some ('\n', tail) := by
  simp [decodeEscape]

theorem decodeEscape_lit_r (tail : List Char) : decodeEscape ('r' :: tail) = some ('\r', tail) := by
  simp [decodeEscape]

theorem decodeEscape_lit_t (tail : List Char) : decodeEscape ('t' :: tail) = some ('\t', tail) := by
  simp [decodeEscape]

theorem parseStringBody_cons_bs (cs : List Char) (ch : Char) (tl : List Char)
    (hde : decodeEscape cs = some (ch, tl)) :
    parseStringBody ('\\' :: cs) = (parseStringBody tl).map (fun q => (ch :: q.1, q.2)) := by
  have hu : parseStringBody ('\\' :: cs) =
      match h : decodeEscape cs with
      | some p => (parseStringBody p.2).map (fun q => (p.1 :: q.1, q.2))
      | Option.none => Option.none := by
    simp [parseStringBody]
  rw [hu]
  split
  · rename_i p hp
    rw [hde] at hp
    cases hp
    rfl
  · rename_i hp
    rw [hde] at hp
    cases hp

theorem parseStringBody_escape (s : List Char) (rest : List Char) :
    parseStringBody (escapeStr s ++ ('\"' :: rest)) = some (s, rest) := by
  induction s with
  | nil =>
    simp [escapeStr, parseStringBody]
  | cons c cs ih =>
    have hesc : escapeStr (c :: cs) = escapeChar c ++ escapeStr cs := by
      simp [escapeStr]
    rw [hesc, List.append_assoc]
    by_cases h1 : c = '\\'
    · subst h1
      rw [show escapeChar '\\' ++ (escapeStr cs ++ '\"' :: rest)
            = '\\' :: ('\\' :: (escapeStr cs ++ '\"' :: rest)) from rfl]
      rw [parseStringBody_cons_bs _ _ _ (decodeEscape_lit_bs (escapeStr cs ++ '\"' :: rest))]
      simp [ih]
    ·
      by_cases h2 : c = '\"'
      · subst h2
        rw [show escapeChar '\"' ++ (escapeStr cs ++ '\"' :: rest)
              = '\\' :: ('\"' :: (escapeStr cs ++ '\"' :: rest)) from rfl]
        rw [parseStringBody_cons_bs _ _ _ (decodeEscape_lit_quote (escapeStr cs ++ '\"' :: rest))]
        simp [ih]
      ·
        by_cases h3 : c = '\x08'
        · subst h3
          rw [show escapeChar '\x08' ++ (escapeStr cs ++ '\"' :: rest)
                = '\\' :: ('b' :: (escapeStr cs ++ '\"' :: rest)) from rfl]
          rw [parseStringBody_cons_bs _ _ _ (decodeEscape_lit_b (escapeStr cs ++ '\"' :: rest))]
          simp [ih]
        ·
          by_cases h4 : c = '\x0c'
          · subst h4
            rw [show escapeChar '\x0c' ++ (escapeStr cs ++ '\"' :: rest)
                  = '\\' :: ('f' :: (escapeStr cs ++ '\"' :: rest)) from rfl]
            rw [parseStringBody_cons_bs _ _ _ (decodeEscape_lit_f (escapeStr cs ++ '\"' :: rest))]
            simp [ih]
          ·
            by_cases h5 : c = '\n'
            · subst h5
              rw [show escapeChar '\n' ++ (escapeStr cs ++ '\"' :: rest)
                    = '\\' :: ('n' :: (escapeStr cs ++ '\"' :: rest)) from rfl]
              rw [parseStringBody_cons_bs _ _ _ (decodeEscape_lit_n (escapeStr cs ++ '\"' :: rest))]
              simp [ih]
            ·
              by_cases h6 : c = '\r'
              · subst h6
                rw [show escapeChar '\r' ++ (escapeStr cs ++ '\"' :: rest)
                      = '\\' :: ('r' :: (escapeStr cs ++ '\"' :: rest)) from rfl]
                rw [parseStringBody_cons_bs _ _ _ (decodeEscape_lit_r (escapeStr cs ++ '\"' :: rest))]
                simp [ih]
              ·
                by_cases h7 : c = '\t'
                · subst h7
                  rw [show escapeChar '\t' ++ (escapeStr cs ++ '\"' :: rest)
                        = '\\' :: ('t' :: (escapeStr cs ++ '\"' :: rest)) from rfl]
                  rw [parseStringBody_cons_bs _ _ _ (decodeEscape_lit_t (escapeStr cs ++ '\"' :: rest))]
                  simp [ih]
                ·
                  by_cases h8 : c.toNat < 32
                  · have hec : escapeChar c =
                        ['\\', 'u', '0', '0', hexDigitChar (c.toNat / 16),
                         hexDigitChar (c.toNat % 16)] := by
                      simp [escapeChar, h1, h2, h3, h4, h5, h6, h7, h8]
                    rw [hec]
                    simp only [List.cons_append, List.nil_append]
                    rw [parseStringBody_cons_bs _ _ _ (decodeEscape_u h8 (escapeStr cs ++ '\"' :: rest))]
                    simp [Char.ofNat_toNat, ih]
                  · have hec : escapeChar c = [c] := by
                      simp [escapeChar, h1, h2, h3, h4, h5, h6, h7, h8]
                    rw [hec]
                    simp only [List.cons_append, List.nil_append]
                    simp [parseStringBody, h1, h2, h8, ih]

theorem parseValue_str (f : Nat) (s : String) (rest : List Char) :
    parseValue (f + 1) (dumpsChars (.str s) ++ rest) = some (.str s, rest) := by
  have hd : dumpsChars (.str s) ++ rest = '"' :: (escapeStr s.data ++ ('"' :: rest)) := by
    simp [dumpsChars]
  rw [hd]
  have hsw : skipWs ('"' :: (escapeStr s.data ++ ('"' :: rest)))
      = '"' :: (escapeStr s.data ++ ('"' :: rest)) := skipWs_cons_of (by decide) _
  simp [parseValue, hsw, parseStringBody_escape]

theorem parseValue_true (f : Nat) (rest : List Char) :
    parseValue (f + 1) (dumpsChars (.bool true) ++ rest) = some (.bool true, rest) := by
  have hd : dumpsChars (.bool true) ++ rest = 't' :: 'r' :: 'u' :: 'e' :: rest := by
    simp [dumpsChars]
  rw [hd]
  have hsw : skipWs ('t' :: 'r' :: 'u' :: 'e' :: rest) = 't' :: 'r' :: 'u' :: 'e' :: rest :=
    skipWs_cons_of (by decide) _
  simp [parseValue, hsw]

theorem parseValue_false (f : Nat) (rest : List Char) :
    parseValue (f + 1) (dumpsChars (.bool false) ++ rest) = some (.bool false, rest) := by
  have hd : dumpsChars (.bool false) ++ rest = 'f' :: 'a' :: 'l' :: 's' :: 'e' :: rest := by
    simp [dumpsChars]
  rw [hd]
  have hsw : skipWs ('f' :: 'a' :: 'l' :: 's' :: 'e' :: rest)
      = 'f' :: 'a' :: 'l' :: 's' :: 'e' :: rest := skipWs_cons_of (by decide) _
  simp [parseValue, hsw]

theorem parseValue_null (f : Nat) (rest : List Char) :
    parseValue (f + 1) (dumpsChars .none ++ rest) = some (.none, rest) := by
  have hd : dumpsChars .none ++ rest = 'n' :: 'u' :: 'l' :: 'l' :: rest := by
    simp [dumpsChars]
  rw [hd]
  have hsw : skipWs ('n' :: 'u' :: 'l' :: 'l' :: rest) = 'n' :: 'u' :: 'l' :: 'l' :: rest :=
    skipWs_cons_of (by decide) _
  simp [parseValue, hsw]

theorem parseValue_nan (f : Nat) (rest : List Char) :
    parseValue (f + 1) (dumpsChars (.float "NaN") ++ rest) = some (.float "NaN", rest) := by
  have hd : dumpsChars (.float "NaN") ++ rest = 'N' :: 'a' :: 'N' :: rest := by
    simp [dumpsChars]
  rw [hd]
  have hsw : skipWs ('N' :: 'a' :: 'N' :: rest) = 'N' :: 'a' :: 'N' :: rest :=
    skipWs_cons_of (by decide) _
  simp [parseValue, hsw]

theorem parseValue_ws (f : Nat) (cs : List Char) :
    parseValue (f + 1) (' ' :: cs) = parseValue (f + 1) cs := by
  have h : skipWs (' ' :: cs) = skipWs cs := by
    simp [skipWs, isWsChar]
  simp only [parseValue, h]

theorem parseMember_ws (f : Nat) (cs : List Char) :
    parseMember (f + 1) (' ' :: cs) = parseMember (f + 1) cs := by
  have h : skipWs (' ' :: cs) = skipWs cs := by
    simp [skipWs, isWsChar]
  simp only [parseMember, h]

theorem dumpsList_cons : ∀ (vs : List PyVal) (v : PyVal),
    dumpsList (v :: vs) = dumpsChars v ++ listSep vs := by
  intro vs
  induction vs with
  | nil => intro v; simp [dumpsList, listSep]
  | cons w ws ih =>
    intro v
    calc dumpsList (v :: w :: ws) = dumpsChars v ++ ',' :: ' ' :: dumpsList (w :: ws) := by
          simp [dumpsList]
      _ = dumpsChars v ++ ',' :: ' ' :: (dumpsChars w ++ listSep ws) := by rw [ih w]
      _ = dumpsChars v ++ listSep (w :: ws) := by simp [listSep]

theorem dumpsMembers_cons : ∀ (ms : List (String × PyVal)) (k : String) (v : PyVal),
    dumpsMembers ((k, v) :: ms) = memberChars k v ++ memSep ms := by
  intro ms
  induction ms with
  | nil => intro k v; simp [dumpsMembers, memSep, memberChars]
  | cons m ms' ih =>
    rcases m with ⟨k2, v2⟩
    intro k v
    calc dumpsMembers ((k, v) :: (k2, v2) :: ms')
          = memberChars k v ++ ',' :: ' ' :: dumpsMembers ((k2, v2) :: ms') := by
          simp [dumpsMembers, memberChars]
      _ = memberChars k v ++ ',' :: ' ' :: (memberChars k2 v2 ++ memSep ms') := by
          rw [ih k2 v2]
      _ = memberChars k v ++ memSep ((k2, v2) :: ms') := by simp [memSep]

theorem digit_head_facts {d : Nat} (h : d < 10) :
    isWsChar (Char.ofNat (48 + d)) = false ∧ Char.ofNat (48 + d) ≠ ']'
      ∧ Char.ofNat (48 + d) ≠ '\x7d' := by
  interval_cases d <;> exact ⟨by decide, by decide, by decide⟩

theorem dumps_head (v : PyVal) (hok : serOk v = true) :
    ∃ c cs, dumpsChars v = c :: cs ∧ isWsChar c = false ∧ c ≠ ']' ∧ c ≠ '\x7d' := by
  cases v with
  | str s => exact ⟨'"', escapeStr s.data ++ ['"'], by simp [dumpsChars], by decide, by decide, by decide⟩
  | int n =>
    by_cases hn : n < 0
    · exact ⟨'-', natDigits n.natAbs, by simp [dumpsChars, intRepr, hn], by decide, by decide, by decide⟩
    · obtain ⟨d, ds, hds, hd10, -, -⟩ := natDigits_props n.natAbs
      obtain ⟨hw, hb, hc⟩ := digit_head_facts hd10
      exact ⟨Char.ofNat (48 + d), ds, by simp [dumpsChars, intRepr, hn, hds], hw, hb, hc⟩
  | bool b =>
    cases b
    · exact ⟨'f', ['a', 'l', 's', 'e'], by simp [dumpsChars], by decide, by decide, by decide⟩
    · exact ⟨'t', ['r', 'u', 'e'], by simp [dumpsChars], by decide, by decide, by decide⟩
  | none => exact ⟨'n', ['u', 'l', 'l'], by simp [dumpsChars], by decide, by decide, by decide⟩
  | float lit =>
    have hlit : lit = "NaN" := by simpa [serOk] using hok
    subst hlit
    exact ⟨'N', ['a', 'N'], by simp [dumpsChars], by decide, by decide, by decide⟩
  | list es => exact ⟨'[', dumpsList es ++ [']'], by simp [dumpsChars], by decide, by decide, by decide⟩
  | dict ms => exact ⟨'\x7b', dumpsMembers ms ++ ['\x7d'], by simp [dumpsChars], by decide, by decide, by decide⟩

theorem numStop_cons {c : Char} (h1 : isDig c = false) (h2 : c ≠ '.') (h3 : c ≠ 'e')
    (h4 : c ≠ 'E') (l : List Char) : numStop (c :: l) := by
  exact ⟨h1, h2, h3, h4⟩

theorem numStop_listSep (vs : List PyVal) (rest : List Char) :
    numStop (listSep vs ++ (']' :: rest)) := by
  cases vs with
  | nil => exact numStop_cons (by decide) (by decide) (by decide) (by decide) _
  | cons v vs' =>
    rw [show listSep (v :: vs') ++ (']' :: rest)
          = ',' :: (' ' :: (dumpsChars v ++ listSep vs') ++ (']' :: rest)) from by
      simp [listSep]]
    exact numStop_cons (by decide) (by decide) (by decide) (by decide) _

theorem numStop_memSep (ms : List (String × PyVal)) (rest : List Char) :
    numStop (memSep ms ++ ('\x7d' :: rest)) := by
  cases ms with
  | nil => exact numStop_cons (by decide) (by decide) (by decide) (by decide) _
  | cons m ms' =>
    rcases m with ⟨k, v⟩
    rw [show memSep ((k, v) :: ms') ++ ('\x7d' :: rest)
          = ',' :: (' ' :: (memberChars k v ++ memSep ms') ++ ('\x7d' :: rest)) from by
      simp [memSep]]
    exact numStop_cons (by decide) (by decide) (by decide) (by decide) _

theorem msize_pos (v : PyVal) : 1 ≤ msize v := by
  cases v <;> simp [msize] <;> omega

theorem msizeL_pos (es : List PyVal) : 1 ≤ msizeL es := by
  cases es <;> simp [msizeL] <;> omega

theorem msizeM_pos (ms : List (String × PyVal)) : 1 ≤ msizeM ms := by
  cases ms with
  | nil => simp [msizeM]
  | cons m ms' => rcases m with ⟨k, v⟩; simp [msizeM]; omega

theorem parse_dumps_ind (k : Nat) :
    (∀ (v : PyVal) (f : Nat) (rest : List Char), msize v ≤ k → msize v ≤ f →
        serOk v = true → numStop rest →
        parseValue f (dumpsChars v ++ rest) = some (v, rest)) ∧
    (∀ (es : List PyVal) (f : Nat) (rest : List Char), msizeL es ≤ k → msizeL es ≤ f →
        serList es = true →
        parseArrayTail f (listSep es ++ (']' :: rest)) = some (es, rest)) ∧
    (∀ (kk : String) (v : PyVal) (f : Nat) (rest : List Char), msize v ≤ k → msize v ≤ f →
        serOk v = true → numStop rest →
        parseMember (f + 1) (memberChars kk v ++ rest) = some ((kk, v), rest)) ∧
    (∀ (ms : List (String × PyVal)) (f : Nat) (rest : List Char), msizeM ms ≤ k →
        msizeM ms ≤ f → serMembers ms = true →
        parseMembersTail f (memSep ms ++ ('\x7d' :: rest)) = some (ms, rest)) := by
  induction k with
  | zero =>
    refine ⟨?_, ?_, ?_, ?_⟩
    · intro v f rest hk _ _ _; have := msize_pos v; omega
    · intro es f rest hk _ _; have := msizeL_pos es; omega
    · intro kk v f rest hk _ _ _; have := msize_pos v; omega
    · intro ms f rest hk _ _; have := msizeM_pos ms; omega
  | succ k ih =>
    obtain ⟨ihP, ihQ, ihS, ihR⟩ := ih
    have hP : ∀ (v : PyVal) (f : Nat) (rest : List Char), msize v ≤ k + 1 → msize v ≤ f →
        serOk v = true → numStop rest →
        parseValue f (dumpsChars v ++ rest) = some (v, rest) := by
      intro v f rest hk hf hok hr
      obtain ⟨f1, rfl⟩ : ∃ f1, f = f1 + 1 := ⟨f - 1, by have := msize_pos v; omega⟩
      cases v with
      | str s => exact parseValue_str f1 s rest
      | int n =>
        have hd : dumpsChars (.int n) = intRepr n := by simp [dumpsChars]
        rw [hd]
        exact parseValue_int n f1 hr
      | bool b =>
        cases b
        · exact parseValue_false f1 rest
        · exact parseValue_true f1 rest
      | none => exact parseValue_null f1 rest
      | float lit =>
        have hlit : lit = "NaN" := by simpa [serOk] using hok
        subst hlit
        exact parseValue_nan f1 rest
      | list es =>
        have hd : dumpsChars (.list es) ++ rest = '[' :: (dumpsList es ++ (']' :: rest)) := by
          simp [dumpsChars]
        rw [hd]
        cases es with
        | nil =>
          simp [parseValue, dumpsList, skipWs, isWsChar]
        | cons v1 vs =>
          rw [show dumpsList (v1 :: vs) = dumpsChars v1 ++ listSep vs from dumpsList_cons vs v1,
            List.append_assoc]
          have hok2 : serOk v1 = true ∧ serList vs = true := by
            simpa [serOk, serList, Bool.and_eq_true] using hok
          have hkb : 1 + (1 + msize v1 + msizeL vs) ≤ k + 1 := by
            simpa [msize, msizeL] using hk
          have hfb : 1 + (1 + msize v1 + msizeL vs) ≤ f1 + 1 := by
            simpa [msize, msizeL] using hf
          have hpos1 := msize_pos v1
          have hpos2 := msizeL_pos vs
          obtain ⟨c1, cs1, hc1, hw1, hb1, hd1⟩ := dumps_head v1 hok2.1
          have hXc : dumpsChars v1 ++ (listSep vs ++ (']' :: rest))
              = c1 :: (cs1 ++ (listSep vs ++ (']' :: rest))) := by rw [hc1]; simp
          have hsw : skipWs ('[' :: (dumpsChars v1 ++ (listSep vs ++ (']' :: rest))))
              = '[' :: (dumpsChars v1 ++ (listSep vs ++ (']' :: rest))) :=
            skipWs_cons_of (by decide) _
          have h1 : skipWs (dumpsChars v1 ++ (listSep vs ++ (']' :: rest)))
              = dumpsChars v1 ++ (listSep vs ++ (']' :: rest)) := by
            rw [hXc]; exact skipWs_cons_of hw1 _
          have h3 : ¬ ((skipWs (dumpsChars v1 ++ (listSep vs ++ (']' :: rest)))).head?
              = some ']') := by
            rw [h1, hXc]; simp [hb1]
          have hval : parseValue f1 (dumpsChars v1 ++ (listSep vs ++ (']' :: rest)))
              = some (v1, listSep vs ++ (']' :: rest)) :=
            ihP v1 f1 _ (by omega) (by omega) hok2.1 (numStop_listSep vs rest)
          have htail : parseArrayTail f1 (listSep vs ++ (']' :: rest)) = some (vs, rest) :=
            ihQ vs f1 rest (by omega) (by omega) hok2.2
          simp [parseValue, hsw, h3, hval, htail]
      | dict ms =>
        have hd : dumpsChars (.dict ms) ++ rest
            = '\x7b' :: (dumpsMembers ms ++ ('\x7d' :: rest)) := by
          simp [dumpsChars]
        rw [hd]
        cases ms with
        | nil =>
          simp [parseValue, dumpsMembers, skipWs, isWsChar]
        | cons m ms' =>
          rcases m with ⟨kk, v1⟩
          rw [show dumpsMembers ((kk, v1) :: ms') = memberChars kk v1 ++ memSep ms' from
            dumpsMembers_cons ms' kk v1, List.append_assoc]
          have hok2 : serOk v1 = true ∧ serMembers ms' = true := by
            simpa [serOk, serMembers, Bool.and_eq_true] using hok
          have hkb : 1 + (1 + msize v1 + msizeM ms') ≤ k + 1 := by
            simpa [msize, msizeM] using hk
          have hfb : 1 + (1 + msize v1 + msizeM ms') ≤ f1 + 1 := by
            simpa [msize, msizeM] using hf
          have hpos1 := msize_pos v1
          have hpos2 := msizeM_pos ms'
          obtain ⟨g, rfl⟩ : ∃ g, f1 = g + 1 := ⟨f1 - 1, by omega⟩
          have hm : memberChars kk v1 ++ (memSep ms' ++ ('\x7d' :: rest))
              = '"' :: (escapeStr kk.data ++ ('"' :: (':' :: (' ' ::
                  (dumpsChars v1 ++ (memSep ms' ++ ('\x7d' :: rest))))))) := by
            simp [memberChars]
          have hsw : skipWs ('\x7b' :: (memberChars kk v1 ++ (memSep ms' ++ ('\x7d' :: rest))))
              = '\x7b' :: (memberChars kk v1 ++ (memSep ms' ++ ('\x7d' :: rest))) :=
            skipWs_cons_of (by decide) _
          have h1 : skipWs (memberChars kk v1 ++ (memSep ms' ++ ('\x7d' :: rest)))
              = memberChars kk v1 ++ (memSep ms' ++ ('\x7d' :: rest)) := by
            rw [hm]; exact skipWs_cons_of (by decide) _
          have h3 : ¬ ((skipWs (memberChars kk v1 ++ (memSep ms' ++ ('\x7d' :: rest)))).head?
              = some '\x7d') := by
            rw [h1, hm]; simp
          have hmem : parseMember (g + 1) (memberChars kk v1 ++ (memSep ms' ++ ('\x7d' :: rest)))
              = some ((kk, v1), memSep ms' ++ ('\x7d' :: rest)) :=
            ihS kk v1 g _ (by omega) (by omega) hok2.1 (numStop_memSep ms' rest)
          have htail : parseMembersTail (g + 1) (memSep ms' ++ ('\x7d' :: rest))
              = some (ms', rest) :=
            ihR ms' (g + 1) rest (by omega) (by omega) hok2.2
          generalize g + 1 = h at hmem htail hsw h3 ⊢
          simp [parseValue, hsw, h3, hmem, htail]
    have hS : ∀ (kk : String) (v : PyVal) (f : Nat) (rest : List Char), msize v ≤ k + 1 →
        msize v ≤ f → serOk v = true → numStop rest →
        parseMember (f + 1) (memberChars kk v ++ rest) = some ((kk, v), rest) := by
      intro kk v f rest hk hf hok hr
      obtain ⟨f2, rfl⟩ : ∃ f2, f = f2 + 1 := ⟨f - 1, by have := msize_pos v; omega⟩
      have hm : memberChars kk v ++ rest
          = '"' :: (escapeStr kk.data ++ ('"' :: (':' :: (' ' :: (dumpsChars v ++ rest))))) := by
        simp [memberChars]
      rw [hm]
      have hsw : skipWs ('"' :: (escapeStr kk.data ++ ('"' :: (':' :: (' ' ::
          (dumpsChars v ++ rest))))))
          = '"' :: (escapeStr kk.data ++ ('"' :: (':' :: (' ' :: (dumpsChars v ++ rest))))) :=
        skipWs_cons_of (by decide) _
      have hsb : parseStringBody (escapeStr kk.data ++ ('"' :: (':' :: (' ' ::
          (dumpsChars v ++ rest)))))
          = some (kk.data, ':' :: (' ' :: (dumpsChars v ++ rest))) :=
        parseStringBody_escape kk.data _
      have hsw2 : skipWs (':' :: (' ' :: (dumpsChars v ++ rest)))
          = ':' :: (' ' :: (dumpsChars v ++ rest)) := skipWs_cons_of (by decide) _
      have hval : parseValue (f2 + 1) (' ' :: (dumpsChars v ++ rest)) = some (v, rest) := by
        rw [parseValue_ws]
        exact hP v (f2 + 1) rest hk hf hok hr
      generalize f2 + 1 = h at hval ⊢
      simp [parseMember, hsw, hsb, hsw2, hval]
    have hQ : ∀ (es : List PyVal) (f : Nat) (rest : List Char), msizeL es ≤ k + 1 →
        msizeL es ≤ f → serList es = true →
        parseArrayTail f (listSep es ++ (']' :: rest)) = some (es, rest) := by
      intro es f rest hk hf hser
      obtain ⟨f1, rfl⟩ : ∃ f1, f = f1 + 1 := ⟨f - 1, by have := msizeL_pos es; omega⟩
      cases es with
      | nil =>
        simp [parseArrayTail, listSep, skipWs, isWsChar]
      | cons v1 vs =>
        have hls : listSep (v1 :: vs) ++ (']' :: rest)
            = ',' :: (' ' :: (dumpsChars v1 ++ (listSep vs ++ (']' :: rest)))) := by
          simp [listSep]
        rw [hls]
        have hok2 : serOk v1 = true ∧ serList vs = true := by
          simpa [serList, Bool.and_eq_true] using hser
        have hkb : 1 + msize v1 + msizeL vs ≤ k + 1 := by
          simpa [msizeL] using hk
        have hfb : 1 + msize v1 + msizeL vs ≤ f1 + 1 := by
          simpa [msizeL] using hf
        have hpos1 := msize_pos v1
        have hpos2 := msizeL_pos vs
        obtain ⟨g, rfl⟩ : ∃ g, f1 = g + 1 := ⟨f1 - 1, by omega⟩
        have hsw : skipWs (',' :: (' ' :: (dumpsChars v1 ++ (listSep vs ++ (']' :: rest)))))
            = ',' :: (' ' :: (dumpsChars v1 ++ (listSep vs ++ (']' :: rest)))) :=
          skipWs_cons_of (by decide) _
        have hval : parseValue (g + 1) (' ' :: (dumpsChars v1 ++ (listSep vs ++ (']' :: rest))))
            = some (v1, listSep vs ++ (']' :: rest)) := by
          rw [parseValue_ws]
          exact ihP v1 (g + 1) _ (by omega) (by omega) hok2.1 (numStop_listSep vs rest)
        have htail : parseArrayTail (g + 1) (listSep vs ++ (']' :: rest)) = some (vs, rest) :=
          ihQ vs (g + 1) rest (by omega) (by omega) hok2.2
        generalize g + 1 = h at hval htail hsw ⊢
        simp [parseArrayTail, hsw, hval, htail]
    have hR : ∀ (ms : List (String × PyVal)) (f : Nat) (rest : List Char), msizeM ms ≤ k + 1 →
        msizeM ms ≤ f → serMembers ms = true →
        parseMembersTail f (memSep ms ++ ('\x7d' :: rest)) = some (ms, rest) := by
      intro ms f rest hk hf hser
      obtain ⟨f1, rfl⟩ : ∃ f1, f = f1 + 1 := ⟨f - 1, by have := msizeM_pos ms; omega⟩
      cases ms with
      | nil =>
        simp [parseMembersTail, memSep, skipWs, isWsChar]
      | cons m ms' =>
        rcases m with ⟨kk, v1⟩
        have hls : memSep ((kk, v1) :: ms') ++ ('\x7d' :: rest)
            = ',' :: (' ' :: (memberChars kk v1 ++ (memSep ms' ++ ('\x7d' :: rest)))) := by
          simp [memSep]
        rw [hls]
        have hok2 : serOk v1 = true ∧ serMembers ms' = true := by
          simpa [serMembers, Bool.and_eq_true] using hser
        have hkb : 1 + msize v1 + msizeM ms' ≤ k + 1 := by
          simpa [msizeM] using hk
        have hfb : 1 + msize v1 + msizeM ms' ≤ f1 + 1 := by
          simpa [msizeM] using hf
        have hpos1 := msize_pos v1
        have hpos2 := msizeM_pos ms'
        obtain ⟨g, rfl⟩ : ∃ g, f1 = g + 1 := ⟨f1 - 1, by omega⟩
        have hsw : skipWs (',' :: (' ' :: (memberChars kk v1 ++ (memSep ms' ++ ('\x7d' :: rest)))))
            = ',' :: (' ' :: (memberChars kk v1 ++ (memSep ms' ++ ('\x7d' :: rest)))) :=
          skipWs_cons_of (by decide) _
        have hmem : parseMember (g + 1) (' ' :: (memberChars kk v1 ++ (memSep ms'
            ++ ('\x7d' :: rest))))
            = some ((kk, v1), memSep ms' ++ ('\x7d' :: rest)) := by
          rw [parseMember_ws]
          exact ihS kk v1 g _ (by omega) (by omega) hok2.1 (numStop_memSep ms' rest)
        have htail : parseMembersTail (g + 1) (memSep ms' ++ ('\x7d' :: rest))
            = some (ms', rest) :=
          ihR ms' (g + 1) rest (by omega) (by omega) hok2.2
        generalize g + 1 = h at hmem htail hsw ⊢
        simp [parseMembersTail, hsw, hmem, htail]
    exact ⟨hP, hQ, hS, hR⟩

theorem msize_le_ind (k : Nat) :
    (∀ (v : PyVal), msize v ≤ k → serOk v = true →
        msize v ≤ 2 * (dumpsChars v).length) ∧
    (∀ (es : List PyVal), msizeL es ≤ k → serList es = true →
        msizeL es ≤ 2 * (listSep es).length + 1) ∧
    (∀ (ms : List (String × PyVal)), msizeM ms ≤ k → serMembers ms = true →
        msizeM ms ≤ 2 * (memSep ms).length + 1) := by
  induction k with
  | zero =>
    refine ⟨?_, ?_, ?_⟩
    · intro v hk _; have := msize_pos v; omega
    · intro es hk _; have := msizeL_pos es; omega
    · intro ms hk _; have := msizeM_pos ms; omega
  | succ k ih =>
    obtain ⟨ih1, ih2, ih3⟩ := ih
    refine ⟨?_, ?_, ?_⟩
    · intro v hk hok
      cases v with
      | str s =>
        have hl : (dumpsChars (.str s)).length
            = (escapeStr s.data).length + 2 := by
          simp [dumpsChars]
        simp only [msize, hl]
        omega
      | int n =>
        obtain ⟨d, ds, hds, -, -, -⟩ := natDigits_props n.natAbs
        have hl : 1 ≤ (dumpsChars (.int n)).length := by
          simp only [dumpsChars, intRepr]
          split
          · simp
          · rw [hds]; simp
        simp only [msize]
        omega
      | bool b =>
        cases b
        · have hl : (dumpsChars (.bool false)).length = 5 := by
            have : ("false".data).length = 5 := by decide
            simp [dumpsChars, this]
          simp only [msize, hl]; omega
        · have hl : (dumpsChars (.bool true)).length = 4 := by
            have : ("true".data).length = 4 := by decide
            simp [dumpsChars, this]
          simp only [msize, hl]; omega
      | none =>
        have hl : (dumpsChars PyVal.none).length = 4 := by
          have : ("null".data).length = 4 := by decide
          simp [dumpsChars, this]
        simp only [msize, hl]; omega
      | float lit =>
        have hlit : lit = "NaN" := by simpa [serOk] using hok
        subst hlit
        have hl : (dumpsChars (.float "NaN")).length = 3 := by
          have h3 : ("NaN".data).length = 3 := by decide
          simp [dumpsChars, h3]
        simp only [msize, hl]
        omega
      | list es =>
        have hok2 : serList es = true := by simpa [serOk] using hok
        cases es with
        | nil =>
          have hl : (dumpsChars (.list [])).length = 2 := by
            simp [dumpsChars, dumpsList]
          simp only [msize, msizeL, hl]; omega
        | cons v1 vs =>
          have hok3 : serOk v1 = true ∧ serList vs = true := by
            simpa [serList, Bool.and_eq_true] using hok2
          have hkb : 1 + (1 + msize v1 + msizeL vs) ≤ k + 1 := by
            simpa [msize, msizeL] using hk
          have hpos1 := msize_pos v1
          have hpos2 := msizeL_pos vs
          have h1 := ih1 v1 (by omega) hok3.1
          have h2 := ih2 vs (by omega) hok3.2
          have hl : (dumpsChars (.list (v1 :: vs))).length
              = (dumpsChars v1).length + (listSep vs).length + 2 := by
            rw [show dumpsChars (.list (v1 :: vs))
                = '[' :: (dumpsList (v1 :: vs) ++ [']']) from by simp [dumpsChars],
              dumpsList_cons vs v1]
            simp
            omega
          simp only [msize, msizeL, hl]
          omega
      | dict ms =>
        have hok2 : serMembers ms = true := by simpa [serOk] using hok
        cases ms with
        | nil =>
          have hl : (dumpsChars (.dict [])).length = 2 := by
            simp [dumpsChars, dumpsMembers]
          simp only [msize, msizeM, hl]; omega
        | cons m ms' =>
          rcases m with ⟨kk, v1⟩
          have hok3 : serOk v1 = true ∧ serMembers ms' = true := by
            simpa [serMembers, Bool.and_eq_true] using hok2
          have hkb : 1 + (1 + msize v1 + msizeM ms') ≤ k + 1 := by
            simpa [msize, msizeM] using hk
          have hpos1 := msize_pos v1
          have hpos2 := msizeM_pos ms'
          have h1 := ih1 v1 (by omega) hok3.1
          have h2 := ih3 ms' (by omega) hok3.2
          have hmc : (memberChars kk v1).length
              = (escapeStr kk.data).length + (dumpsChars v1).length + 4 := by
            simp [memberChars]
            omega
          have hl : (dumpsChars (.dict ((kk, v1) :: ms'))).length
              = (memberChars kk v1).length + (memSep ms').length + 2 := by
            rw [show dumpsChars (.dict ((kk, v1) :: ms'))
                = '\x7b' :: (dumpsMembers ((kk, v1) :: ms') ++ ['\x7d']) from by
                  simp [dumpsChars],
              dumpsMembers_cons ms' kk v1]
            simp
            omega
          simp only [msize, msizeM, hl, hmc]
          omega
    · intro es hk hser
      cases es with
      | nil => simp [msizeL, listSep]
      | cons v1 vs =>
        have hok3 : serOk v1 = true ∧ serList vs = true := by
          simpa [serList, Bool.and_eq_true] using hser
        have hkb : 1 + msize v1 + msizeL vs ≤ k + 1 := by
          simpa [msizeL] using hk
        have hpos1 := msize_pos v1
        have hpos2 := msizeL_pos vs
        have h1 := ih1 v1 (by omega) hok3.1
        have h2 := ih2 vs (by omega) hok3.2
        have hl : (listSep (v1 :: vs)).length
            = (dumpsChars v1).length + (listSep vs).length + 2 := by
          simp [listSep]
        simp only [msizeL, hl]
        omega
    · intro ms hk hser
      cases ms with
      | nil => simp [msizeM, memSep]
      | cons m ms' =>
        rcases m with ⟨kk, v1⟩
        have hok3 : serOk v1 = true ∧ serMembers ms' = true := by
          simpa [serMembers, Bool.and_eq_true] using hser
        have hkb : 1 + msize v1 + msizeM ms' ≤ k + 1 := by
          simpa [msizeM] using hk
        have hpos1 := msize_pos v1
        have hpos2 := msizeM_pos ms'
        have h1 := ih1 v1 (by omega) hok3.1
        have h2 := ih3 ms' (by omega) hok3.2
        have hmc : (memberChars kk v1).length
            = (escapeStr kk.data).length + (dumpsChars v1).length + 4 := by
          simp [memberChars]
          omega
        have hl : (memSep ((kk, v1) :: ms')).length
            = (memberChars kk v1).length + (memSep ms').length + 2 := by
          simp [memSep]
        simp only [msizeM, hl, hmc]
        omega

theorem msize_le (v : PyVal) (hok : serOk v = true) : msize v ≤ 2 * (dumpsChars v).length :=
  (msize_le_ind (msize v)).1 v le_rfl hok

theorem parse_dumps (v : PyVal) (f : Nat) (rest : List Char) (hf : msize v ≤ f)
    (hok : serOk v = true) (hr : numStop rest) :
    parseValue f (dumpsChars v ++ rest) = some (v, rest) :=
  (parse_dumps_ind (msize v)).1 v f rest le_rfl hf hok hr

theorem jsonLoads_dumps (v : PyVal) (hok : serOk v = true) :
    jsonLoads (jsonDumps v) = some v := by
  have h2 : (jsonDumps v).length = (dumpsChars v).length := rfl
  have hlen : msize v ≤ 2 * (jsonDumps v).length + 2 := by
    have h1 := msize_le v hok
    omega
  have hp : parseValue (2 * (jsonDumps v).length + 2) (dumpsChars v ++ []) = some (v, []) :=
    parse_dumps v _ [] hlen hok (by simp [numStop])
  rw [List.append_nil] at hp
  have hdata : (jsonDumps v).data = dumpsChars v := rfl
  simp [jsonLoads, hdata, hp, skipWs]

theorem serOk_of_cellOk (v : PyVal) (h : cellOk v = true) : serOk v = true := by
  cases v <;> simp_all [cellOk, serOk]

theorem serMembers_of_cells : ∀ ms : List (String × PyVal),
    ms.all (fun kv => cellOk kv.2) = true → serMembers ms = true := by
  intro ms
  induction ms with
  | nil => intro _; simp [serMembers]
  | cons m ms' ih =>
    rcases m with ⟨k, v⟩
    intro h
    simp only [List.all_cons, Bool.and_eq_true] at h
    simp [serMembers, serOk_of_cellOk v h.1, ih h.2]

theorem serOk_of_rowOk (v : PyVal) (h : rowOk v = true) : serOk v = true := by
  cases v with
  | dict ms =>
    simp only [serOk]
    exact serMembers_of_cells ms (by simpa [rowOk] using h)
  | str s => simp [rowOk] at h
  | int n => simp [rowOk] at h
  | bool b => simp [rowOk] at h
  | none => simp [rowOk] at h
  | float lit => simp [rowOk] at h
  | list es => simp [rowOk] at h

theorem serList_of_rows : ∀ es : List PyVal,
    es.all rowOk = true → serList es = true := by
  intro es
  induction es with
  | nil => intro _; simp [serList]
  | cons v vs ih =>
    intro h
    simp only [List.all_cons, Bool.and_eq_true] at h
    simp [serList, serOk_of_rowOk v h.1, ih h.2]

theorem brackets_dumps_list (es : List PyVal) :
    startsBracket (jsonDumps (.list es)) = true ∧ endsBracket (jsonDumps (.list es)) = true := by
  have hd : (jsonDumps (.list es)).data = '[' :: (dumpsList es ++ [']']) := by
    simp [jsonDumps, dumpsChars]
  have hd2 : (jsonDumps (.list es)).data = ('[' :: dumpsList es) ++ [']'] := by
    rw [hd]; simp
  have glast : ('[' :: (dumpsList es ++ [']'])).getLast? = some ']' := by
    rw [show '[' :: (dumpsList es ++ [']']) = ('[' :: dumpsList es) ++ [']'] from by simp]
    exact List.getLast?_concat _
  constructor
  · simp [startsBracket, hd]
  · simp [endsBracket, hd, glast]

theorem reconstruct_flatten_val (v : PyVal) (h : valOk v = true) :
    reconstructVal (flattenVal v) = v := by
  cases v with
  | str s =>
    have hb : (startsBracket s && endsBracket s) = false := by
      have h' : valOk (.str s) = true := h
      simp only [valOk, Bool.not_eq_true'] at h'
      exact h'
    simp [flattenVal, reconstructVal, hb]
  | int n => simp [flattenVal, reconstructVal]
  | bool b => simp [flattenVal, reconstructVal]
  | none => simp [flattenVal, reconstructVal]
  | float lit => simp [valOk] at h
  | dict ms => simp [flattenVal, reconstructVal]
  | list es =>
    have hok : serOk (.list es) = true := by
      simp only [serOk]
      exact serList_of_rows es (by simpa [valOk] using h)
    have hjl := jsonLoads_dumps (.list es) hok
    obtain ⟨hsb, heb⟩ := brackets_dumps_list es
    simp [flattenVal, reconstructVal, hsb, heb, hjl]

theorem parseValue_lbracket {f : Nat} {t rest : List Char} {v : PyVal}
    (h : parseValue (f + 1) ('[' :: t) = some (v, rest)) : ∃ es, v = PyVal.list es := by
  simp only [parseValue, skipWs_cons_of (show isWsChar '[' = false by decide) t] at h
  simp at h
  split_ifs at h with hcond
  · exact ⟨[], by cases h; rfl⟩
  · split at h
    · simp at h
    · split at h
      · simp at h
      · cases h
        exact ⟨_, rfl⟩

theorem jsonLoads_bracket (s : String) (j : PyVal) (hsb : startsBracket s = true)
    (hl : jsonLoads s = some j) : ∃ es, j = PyVal.list es := by
  obtain ⟨t, ht⟩ : ∃ t, s.data = '[' :: t := by
    unfold startsBracket at hsb
    split at hsb
    · rename_i heq
      exact ⟨_, heq⟩
    · simp at hsb
  unfold jsonLoads at hl
  split at hl
  · split_ifs at hl
    cases hl
    rename_i v0 rest heq h5
    rw [ht] at h5
    exact parseValue_lbracket (show parseValue ((2 * s.length + 1) + 1) ('[' :: t)
      = some (j, rest) from h5)
  · simp at hl

/-- C3 (amended): for every record whose table-valued entries are lists
of scalar-valued mappings *without float cells* and whose string entries
are not bracketed (`recordOk`), reconstructing the flattened record
yields the original record, `reconstructRecord (flattenRecord r) = r` —
and structural equality implies Python equality on this NaN-free
domain.  The float restriction is the amendment: the claim as stated is
false for a `NaN` cell (see the counterexample). -/
theorem claim3_roundtrip (r : List (String × PyVal)) (h : recordOk r = true) :
    reconstructRecord (flattenRecord r) = r := by
  induction r with
  | nil => simp [reconstructRecord, flattenRecord]
  | cons kv r ih =>
    rcases kv with ⟨k, v⟩
    simp only [recordOk, List.all_cons, Bool.and_eq_true] at h
    have h1 := reconstruct_flatten_val v h.1
    have h2 : reconstructRecord (flattenRecord r) = r := ih (by
      simp only [recordOk]
      exact h.2)
    simp only [reconstructRecord, flattenRecord, List.map_cons, List.map_map] at h2 ⊢
    simp [h1, h2]

theorem claim3_witness :
    recordOk [("exp_code", PyVal.str "E1"),
      ("cathode_table", PyVal.list [PyVal.dict [("type", PyVal.str "Li"),
        ("weight", PyVal.int 10)]])] = true ∧
    reconstructRecord (flattenRecord [("exp_code", PyVal.str "E1"),
      ("cathode_table", PyVal.list [PyVal.dict [("type", PyVal.str "Li"),
        ("weight", PyVal.int 10)]])])
      = [("exp_code", PyVal.str "E1"),
        ("cathode_table", PyVal.list [PyVal.dict [("type", PyVal.str "Li"),
          ("weight", PyVal.int 10)]])] :=
  ⟨by decide, claim3_roundtrip _ (by decide)⟩

/-- C3, counterexample to the claim as stated: a table cell holding the
float `NaN` is a scalar in the claim's sense (`recordScalar`), yet
`reconstruct(flatten(record)) == record` fails on it — `json.dumps`
writes `NaN`, `json.loads` returns a fresh `nan`, and `nan == nan` is
false in Python (`pyEqRecord`). -/
theorem claim3_counterexample :
    recordScalar [("t", PyVal.list [PyVal.dict [("x", PyVal.float "NaN")]])] = true ∧
    pyEqRecord
      (reconstructRecord (flattenRecord
        [("t", PyVal.list [PyVal.dict [("x", PyVal.float "NaN")]])]))
      [("t", PyVal.list [PyVal.dict [("x", PyVal.float "NaN")]])] = false := by
  constructor
  · decide
  · have hok : serOk (PyVal.list [PyVal.dict [("x", PyVal.float "NaN")]]) = true := by
      simp [serOk, serList, serMembers]
    have hjl := jsonLoads_dumps _ hok
    obtain ⟨hsb, heb⟩ := brackets_dumps_list [PyVal.dict [("x", PyVal.float "NaN")]]
    simp [flattenRecord, flattenVal, reconstructRecord, reconstructVal, hsb, heb, hjl,
          pyEqRecord, pyEqMembers, pyEqVal, pyEqList]

/-- C7: reconstruction decodes each bracketed string value with
`json.loads`, and a successful decode of a string starting with `[` is
always a JSON array; on decode failure the raw string is kept; strings
that are not bracketed, and all non-string values, pass through
unchanged (the reconstruction is a total function in this model: it
never raises). -/
theorem claim7_reconstruction :
    (∀ (s : String) (j : PyVal), (startsBracket s && endsBracket s) = true →
        jsonLoads s = some j →
        reconstructVal (.str s) = j ∧ ∃ es, j = PyVal.list es) ∧
    (∀ s : String, (startsBracket s && endsBracket s) = true → jsonLoads s = Option.none →
        reconstructVal (.str s) = .str s) ∧
    (∀ s : String, (startsBracket s && endsBracket s) = false →
        reconstructVal (.str s) = .str s) ∧
    (∀ v : PyVal, (∀ s, v ≠ .str s) → reconstructVal v = v) := by
  refine ⟨?_, ?_, ?_, ?_⟩
  · intro s j hb hl
    refine ⟨by simp [reconstructVal, hb, hl], ?_⟩
    have hsb2 : startsBracket s = true := by
      have hb2 := hb
      simp only [Bool.and_eq_true] at hb2
      exact hb2.1
    exact jsonLoads_bracket s j hsb2 hl
  · intro s hb hl
    simp [reconstructVal, hb, hl]
  · intro s hb
    simp [reconstructVal, hb]
  · intro v hv
    cases v with
    | str s => exact absurd rfl (hv s)
    | int n => simp [reconstructVal]
    | bool b => simp [reconstructVal]
    | none => simp [reconstructVal]
    | float lit => simp [reconstructVal]
    | list es => simp [reconstructVal]
    | dict ms => simp [reconstructVal]

theorem claim7_witness :
    reconstructVal (.str (String.mk ['[', '1', ']'])) = PyVal.list [PyVal.int 1] ∧
    reconstructVal (.str (String.mk ['[', 'x', ']'])) = .str (String.mk ['[', 'x', ']']) ∧
    reconstructVal (.str (String.mk ['a'])) = .str (String.mk ['a']) ∧
    reconstructVal (.int 7) = .int 7 :=
  ⟨(claim7_reconstruction.1 _ _ (by decide) (by rfl)).1,
   claim7_reconstruction.2.1 _ (by decide) (by rfl),
   claim7_reconstruction.2.2.1 _ (by decide),
   claim7_reconstruction.2.2.2 _ (fun s h => PyVal.noConfusion h)⟩

/-- C8: when no template asset exists at the derived path
(`env.load` returns `none`, the model of `DocxTemplate(template_path)`
raising), `export_to_word` returns an empty (zero-length) stream
instead of propagating the exception. -/
theorem claim8_missing_template (env : DocxEnv) (data : List (String × PyVal))
    (name : String) (h : env.load (templatePath name) = Option.none) :
    (export_to_word env data name).length = 0 := by
  simp [export_to_word, h]

theorem claim8_witness :
    (export_to_word ⟨fun _ => Option.none, fun tpl _ => tpl⟩ []
      (String.mk ['T'])).length = 0 :=
  claim8_missing_template _ [] _ rfl

/-- C9: for a radio field with a non-empty option list, the initially
selected option is the stored value when it is among the options, and
silently the option at index 0 otherwise (also when nothing is stored
yet). -/
theorem claim9_radio_clamp (options : List String) (current : Option String)
    (hne : options ≠ []) :
    (∀ c, current = some c → c ∈ options → radioSelected options current = some c) ∧
    ((match current with | some c => c ∉ options | Option.none => True) →
        radioSelected options current = options.head?) := by
  constructor
  · intro c hc hm
    subst hc
    have hcont : options.contains c = true := by
      simp only [List.contains, List.elem_eq_mem, decide_eq_true_eq]
      exact hm
    simp only [radioSelected, radioIndex, hcont, if_true]
    have hlt : options.indexOf c < options.length := List.indexOf_lt_length.mpr hm
    rw [List.get?_eq_getElem?, List.getElem?_eq_getElem hlt, List.getElem_indexOf hlt]
  · intro hnm
    have hz : radioIndex options current = 0 := by
      cases current with
      | none => rfl
      | some c =>
        simp only [radioIndex]
        rw [if_neg]
        intro hcont
        exact hnm (by simpa [List.contains, List.elem_eq_mem, decide_eq_true_eq] using hcont)
    rw [radioSelected, hz]
    cases options with
    | nil => exact absurd rfl hne
    | cons a as => rfl

theorem claim9_witness :
    radioSelected ["Li", "Na"] (some "K") = some "Li" ∧
    radioSelected ["Li", "Na"] (some "Na") = some "Na" := by
  constructor
  · have h := (claim9_radio_clamp ["Li", "Na"] (some "K") (by simp)).2 (by simp)
    simpa using h
  · exact (claim9_radio_clamp ["Li", "Na"] (some "Na") (by simp)).1 "Na" rfl (by simp)

theorem claim4_witness :
    ((check_exp_code_in_sheet
        { present := true, sheets := [("tab", [["exp_code"], ["A1"]])],
          fault := fun _ => Option.none, clock := 0 } "url" "B2" "tab").1 = true ↔
      "B2" ∉ keyColumnBelowHeader [["exp_code"], ["A1"]]) ∧
    (check_exp_code_in_sheet
        { present := true, sheets := [("tab", [["exp_code"], ["A1"]])],
          fault := fun _ => Option.none, clock := 0 } "url" "B2" "tab").2 =
      (if "B2" ∈ keyColumnBelowHeader [["exp_code"], ["A1"]] then collMsg "B2" "tab"
       else availMsg "B2" "tab") :=
  claim4_check_availability_iff _ "url" "B2" "tab" [["exp_code"], ["A1"]]
    (fun _ => rfl) rfl (by decide) (by decide) (by decide)

theorem claim1_witness :
    ((append_to_sheet
        { present := true, sheets := [("tab", [["exp_code"], ["A1"]])],
          fault := fun _ => Option.none, clock := 0 }
        "url" [("exp_code", PyVal.str "B2")] "tab").1.1 = false ↔
      (check_exp_code_in_sheet
        { present := true, sheets := [("tab", [["exp_code"], ["A1"]])],
          fault := fun _ => Option.none, clock := 0 } "url" "B2" "tab").1 = false) :=
  claim1_gate_matches_check _ "url" "tab" "B2" [("exp_code", PyVal.str "B2")]
    (fun _ => rfl) rfl rfl (by decide)

/-- C1, counterexample to the claim as stated: with a falsy (empty
string) `exp_code` the append-side gate is skipped entirely and the
write is accepted, while the standalone check reports the same code as
not available. -/
theorem claim1_counterexample :
    (append_to_sheet
        { present := true, sheets := [("tab", [["exp_code"], ["A1"]])],
          fault := fun _ => Option.none, clock := 0 }
        "url" [("exp_code", PyVal.str "")] "tab").1.1 = true ∧
    (check_exp_code_in_sheet
        { present := true, sheets := [("tab", [["exp_code"], ["A1"]])],
          fault := fun _ => Option.none, clock := 0 } "url" "" "tab").1 = false := by
  constructor
  · rw [append_of_run_fst (appendRun_fst (fun _ => rfl) rfl "url" "tab"
      [("exp_code", PyVal.str "")])]
    decide
  · rfl

theorem claim2_witness :
    (append_to_sheet
        { present := true, sheets := [("tab", [["exp_code"], ["A1"]])],
          fault := fun _ => Option.none, clock := 0 }
        "url" [("exp_code", PyVal.str "B2"), ("mass", PyVal.int 3)] "tab").1
      = (true, submitSuccessMsg) ∧
    rowPure (gridOf (append_to_sheet
        { present := true, sheets := [("tab", [["exp_code"], ["A1"]])],
          fault := fun _ => Option.none, clock := 0 }
        "url" [("exp_code", PyVal.str "B2"), ("mass", PyVal.int 3)] "tab").2 "tab") 1 =
      rowPure [["exp_code"], ["A1"]] 1 ++
        (([("exp_code", PyVal.str "B2"), ("mass", PyVal.int 3)].map Prod.fst).filter
          (fun c => !(rowPure [["exp_code"], ["A1"]] 1).contains c)) ∧
    (gridOf (append_to_sheet
        { present := true, sheets := [("tab", [["exp_code"], ["A1"]])],
          fault := fun _ => Option.none, clock := 0 }
        "url" [("exp_code", PyVal.str "B2"), ("mass", PyVal.int 3)] "tab").2 "tab").drop 1 =
      ([["exp_code"], ["A1"]] : Grid).drop 1 ++
        [(rowPure [["exp_code"], ["A1"]] 1 ++
            (([("exp_code", PyVal.str "B2"), ("mass", PyVal.int 3)].map Prod.fst).filter
              (fun c => !(rowPure [["exp_code"], ["A1"]] 1).contains c))).map
          (fun c => match (flattenRecord
              [("exp_code", PyVal.str "B2"), ("mass", PyVal.int 3)]).lookup c with
            | some v => cellStr v
            | Option.none => "")] :=
  claim2_schema_widening _ "url" "tab" [["exp_code"], ["A1"]]
    [("exp_code", PyVal.str "B2"), ("mass", PyVal.int 3)]
    (fun _ => rfl) rfl (by decide) (by decide) (by decide) (by decide) (by decide)
    (by decide) (by decide)

/-- C2, counterexample to the claim as stated: the record carries the
new key `mass` not present in the non-empty header, yet — because its
`exp_code` collides with an existing key — append rejects the write and
the header is not widened. -/
theorem claim2_counterexample :
    ("mass" ∈ [("exp_code", PyVal.str "B2"), ("mass", PyVal.int 3)].map Prod.fst ∧
      "mass" ∉ rowPure [["exp_code"], ["B2"]] 1) ∧
    (append_to_sheet
        { present := true, sheets := [("tab", [["exp_code"], ["B2"]])],
          fault := fun _ => Option.none, clock := 0 }
        "url" [("exp_code", PyVal.str "B2"), ("mass", PyVal.int 3)] "tab").1.1 = false ∧
    rowPure (gridOf (append_to_sheet
        { present := true, sheets := [("tab", [["exp_code"], ["B2"]])],
          fault := fun _ => Option.none, clock := 0 }
        "url" [("exp_code", PyVal.str "B2"), ("mass", PyVal.int 3)] "tab").2 "tab") 1 =
      ["exp_code"] := by
  refine ⟨⟨by decide, by decide⟩, ?_, ?_⟩
  · decide
  · decide

end LabSheet
